import Mathlib

/-!
# PDC32 emulator: a shallow embedding of `emu.cpp`

The machine state of `emu.cpp` is a set of global variables; here it is one
record, `State`, passed explicitly.  Machine integers are natural numbers with
an explicit reduction modulo `2^w` wherever the C++ arithmetic can leave the
width of the variable it is stored in.  The two calls to `exit(1)` and the one
unguarded division are the three ways a step can end the process; they are the
constructors of `Fault`, and every operation that can reach one of them
returns `Except Fault _`.

`emu.cpp` includes `instructions.h`, `registers.h`, `comparisons.h` and
`vga.h`.  The numeric values of the opcode and selector enumerators and the
bodies of the six comparison functions are declared there; they enter the
embedding as the parameter `Headers`.  The `vga_*` and `display_*` calls and
the lines written to `cout` are recorded as `Event`s in the state's `trace`.
-/

namespace PDC32

/-! ## Constants (emu.cpp, lines 12-17) -/

/-- Number of words of program memory (line 12). -/
def programLen : Nat := 65536

/-- Number of words of cache (line 13). -/
def cacheLen : Nat := 131072

/-- Number of words of DRAM (line 14). -/
def dramLen : Nat := 33554432

/-- Display cadence constant (line 17). -/
def instructions_per_display_update : Nat := 16666

/-! ## Enumerations declared in the missing headers -/

/-- The opcode types `handleInstruction` compares `type` against, in the order
of its `if`/`else if` chain (lines 82-201). -/
inductive instruction_type
  | A0_SET_DRAM_DATA | A1_SET_CARRY_IN | A2_RETURN | A3_JLEQ | A4_JGEQ | A5_JMP
  | A6_INC_DRAM_ADDR | A7_SET_DRAM_ADDR | A8_JNE | A9_SET_A | A10_SET_HIGH
  | A11_WRITE_DRAM | A12_SET_BUS | A13_CALL | A14_SET_B | A15_SET_ALU
  | B0_TIMER_SPEAKER_OFV | B1_UART_OFV | B2_UART_CONFIG | B3_UART_TX | B5_KBD_TX
  | B6_DATA_ADDR_RTC | B7_OUT_DEBUG_COMMAND_RTC | B8_JL | B9_TIMER_SPEAKER_FUNCTION
  | B10_JG | B11_JE | B12_SET_CACHE_DATA | B13_SET_CACHE_ADDR | B14_ON_OFF_ATX
  | B15_WRITE_CACHE | C0_TIMER | C1_TIME | C2_DRIVE_SERIAL_DATA | C3_DRIVE_SERIAL_ADDR
  | C4_DRIVE_SERIAL_FUNCTION | C7_VGA_TEXT_COLOR | C8_VGA_WRITE_VRAM | C9_VGA_FUNCTION
  | C10_VGA_TEXT_BLINK | C11_VGA_PIXEL_COLOR | C12_VGA_TEXT_WRITE | C13_VGA_TEXT_CHAR
  | C14_VGA_PIXEL_POS | C15_VGA_TEXT_POS
  deriving DecidableEq, Repr, Fintype

/-- The bus selectors named by the `case` labels of `bus()` (lines 46-70), in
the order of the labels. -/
inductive bus_register
  | REG_DRIVE_SERIAL | REG_RTC | REG_UNUSED | REG_KBD | REG_UART | REG_DRAM_DATA
  | REG_DRAM_ADDR | REG_CACHE_DATA | REG_SHIFT_LEFT_A | REG_A_AND_B | REG_SHIFT_RIGHT_A
  | REG_A_XOR_B | REG_A_OR_B | REG_A_PLUS_B | REG_STATE | REG_LITERAL
  deriving DecidableEq, Repr, Fintype

open instruction_type bus_register

/-! ## Observable output and fatal exits -/

/-- What the emulator hands to its collaborators: the lines it writes to `cout`
and the calls into `vga.h`. -/
inductive Event
  /-- Line 119, `UART OFV: speed=...`. -/
  | uart_ofv (speed : Nat)
  /-- Lines 129-133, `UART CONFIG: ...`. -/
  | uart_config (databits : Nat) (parity_enabled parity_odd : Bool) (stopbits : Nat)
  /-- Line 146, `UART TX: (k bits) text`. -/
  | uart_tx (bits : Nat) (text : List Char)
  /-- Line 152, `OUT PARALLEL v`. -/
  | out_parallel (v : Nat)
  /-- Line 182. -/
  | vga_C7_text_color (fg bg : Nat)
  /-- Line 193. -/
  | vga_C12_text_write (c : Nat)
  /-- Line 201. -/
  | vga_C15_text_position (row col : Nat)
  /-- Line 256. -/
  | display_update
  deriving DecidableEq, Repr

/-- The ways a step ends the process. -/
inductive Fault
  /-- Lines 203-204: `UNKNOWN TYPE`, with the opcode byte. -/
  | unknownType (type : Nat)
  /-- Lines 73-74: `MISSING IMPLEMENTATION FOR REGISTER`, with the selector. -/
  | missingRegister (busRegister : Nat)
  /-- Line 118: `24000000 / bus()` with a zero divisor. -/
  | divisionByZero
  deriving DecidableEq, Repr

/-! ## Machine state (emu.cpp, lines 19-42) -/

/-- The global variables of `emu.cpp`.  Arrays are total functions on indices;
every access in the source is at an index below the array's length. -/
structure State where
  dataLiteral : Nat
  cacheAddr : Nat
  cacheData : Nat
  cache : Nat → Nat
  dramAddr : Nat
  dramData : Nat
  dram : Nat → Nat
  program : Nat → Nat
  programCounter : Nat
  returnAddress : Nat
  carryIn : Bool
  aluFlags : Nat
  a : Nat
  b : Nat
  uart_data_bits : Nat
  busRegister : Nat
  trace : List Event

/-- What the headers that are not part of the source tree contribute: the
values of the enumerators (`instructions.h`, `registers.h`) and the six
comparison functions (`comparisons.h`), which read the globals declared
before the `#include`. -/
structure Headers where
  instr : instruction_type → Nat
  reg : bus_register → Nat
  lessThan : State → Bool
  lessOrEqualThan : State → Bool
  greaterThan : State → Bool
  greaterOrEqualThan : State → Bool
  equalThan : State → Bool
  notEqualThan : State → Bool

/-- Modelled from the spec: `comparisons.h` is not part of the source tree; the
specification has its six predicates "evaluated against the ALU-flags latch",
so they do not read `dataLiteral`, the one global `handleInstruction` changes
before it calls them. -/
def Headers.ComparisonsIgnoreLiteral (H : Headers) : Prop :=
  ∀ (s : State) (x : Nat),
    H.lessThan { s with dataLiteral := x } = H.lessThan s
    ∧ H.lessOrEqualThan { s with dataLiteral := x } = H.lessOrEqualThan s
    ∧ H.greaterThan { s with dataLiteral := x } = H.greaterThan s
    ∧ H.greaterOrEqualThan { s with dataLiteral := x } = H.greaterOrEqualThan s
    ∧ H.equalThan { s with dataLiteral := x } = H.equalThan s
    ∧ H.notEqualThan { s with dataLiteral := x } = H.notEqualThan s

/-- The enumerators are pairwise distinct, opcode values fit the opcode byte
and selector values fit the four bits `A12_SET_BUS` keeps. -/
def Headers.WellFormed (H : Headers) : Prop :=
  Function.Injective H.instr ∧ (∀ op, H.instr op < 256) ∧
  Function.Injective H.reg ∧ (∀ r, H.reg r < 16)

/-- The values of the globals at program start (initialisers of lines 19-42;
the arrays are zero-initialised statics, `program` is what `loadProgram`
stored). -/
def init (H : Headers) (program : Nat → Nat) : State where
  dataLiteral := 0
  cacheAddr := 0
  cacheData := 0
  cache := fun _ => 0
  dramAddr := 0
  dramData := 0
  dram := fun _ => 0
  program := program
  programCounter := 0
  returnAddress := 0
  carryIn := false
  aluFlags := 0
  a := 0
  b := 0
  uart_data_bits := 8
  busRegister := H.reg .REG_LITERAL
  trace := []

/-! ## The bus multiplexer (emu.cpp, lines 44-75) -/

/-- The function `bus()`: the `switch` on `busRegister`, label group by label
group. -/
def bus (H : Headers) (s : State) : Except Fault Nat :=
  if s.busRegister = H.reg REG_DRIVE_SERIAL ∨ s.busRegister = H.reg REG_RTC
      ∨ s.busRegister = H.reg REG_UNUSED ∨ s.busRegister = H.reg REG_KBD
      ∨ s.busRegister = H.reg REG_UART ∨ s.busRegister = H.reg REG_DRAM_DATA then
    .ok (s.dram (s.dramAddr % dramLen))
  else if s.busRegister = H.reg REG_DRAM_ADDR then
    .ok s.dramAddr
  else if s.busRegister = H.reg REG_CACHE_DATA then
    .ok (s.cache (s.cacheAddr % cacheLen))
  else if s.busRegister = H.reg REG_SHIFT_LEFT_A then
    .ok ((s.a <<< 1) % 4294967296)
  else if s.busRegister = H.reg REG_A_AND_B then
    .ok (s.a &&& s.b)
  else if s.busRegister = H.reg REG_SHIFT_RIGHT_A then
    .ok (s.a >>> 1)
  else if s.busRegister = H.reg REG_A_XOR_B then
    .ok (s.a ^^^ s.b)
  else if s.busRegister = H.reg REG_A_OR_B then
    .ok (s.a ||| s.b)
  else if s.busRegister = H.reg REG_A_PLUS_B then
    .ok (((if s.carryIn then 1 else 0) + s.a + s.b) % 4294967296)
  else if s.busRegister = H.reg REG_STATE ∨ s.busRegister = H.reg REG_LITERAL then
    .ok s.dataLiteral
  else
    .error (.missingRegister s.busRegister)

/-! ## Instruction decode and dispatch (emu.cpp, lines 77-206) -/

/-- Line 78: `type = (instruction & 0xFF0000) >> 16`, stored in a `uint8_t`. -/
def instrType (instruction : Nat) : Nat :=
  ((instruction &&& 0xFF0000) >>> 16) % 256

/-- Line 79: `data = instruction & 0xFFFF`, stored in a `uint16_t`. -/
def instrData (instruction : Nat) : Nat :=
  (instruction &&& 0xFFFF) % 65536

/-- Line 80: `dataLiteral = (dataLiteral & 0xFFFF0000) | data`. -/
def foldLiteral (s : State) (data : Nat) : State :=
  { s with dataLiteral := (s.dataLiteral &&& 0xFFFF0000) ||| data }

/-- The text `cout` prints for `data` in `B3_UART_TX` (lines 137-144): for up
to eight data bits the low byte of the bus as one character, read as a C
string (so a zero byte prints nothing); otherwise what
`snprintf(data, 4, "%x", word)` leaves in the buffer, at most three
lower-case hexadecimal digits of `word`. -/
def uartText (uart_data_bits busValue word : Nat) : List Char :=
  if uart_data_bits ≤ 8 then
    (if busValue &&& 0xFF = 0 then [] else [Char.ofNat (busValue &&& 0xFF)])
  else
    (Nat.toDigits 16 word).take 3

/-- The function `handleInstruction`: decode, fold the immediate into the
literal, then the `if`/`else if` chain in source order.  `s` is the state
after line 80, the one every handler runs in. -/
def handleInstruction (H : Headers) (s0 : State) (instruction : Nat) : Except Fault State :=
  let type := instrType instruction
  let data := instrData instruction
  let s := foldLiteral s0 data
  if type = H.instr A0_SET_DRAM_DATA then do
    let v ← bus H s
    pure { s with dramData := v }
  else if type = H.instr A1_SET_CARRY_IN then do
    let v ← bus H s
    pure { s with carryIn := decide (v &&& 8 ≠ 0) }
  else if type = H.instr A2_RETURN then
    pure { s with programCounter := s.returnAddress }
  else if type = H.instr A3_JLEQ then
    pure (if H.lessOrEqualThan s then { s with programCounter := data } else s)
  else if type = H.instr A4_JGEQ then
    pure (if H.greaterOrEqualThan s then { s with programCounter := data } else s)
  else if type = H.instr A5_JMP then
    pure { s with programCounter := data }
  else if type = H.instr A6_INC_DRAM_ADDR then
    pure { s with dramAddr := (s.dramAddr + 1) % 4294967296 }
  else if type = H.instr A7_SET_DRAM_ADDR then do
    let v ← bus H s
    pure { s with dramAddr := v }
  else if type = H.instr A8_JNE then
    pure (if H.notEqualThan s then { s with programCounter := data } else s)
  else if type = H.instr A9_SET_A then do
    let v ← bus H s
    pure { s with a := v }
  else if type = H.instr A10_SET_HIGH then
    pure { s with dataLiteral := ((s.dataLiteral &&& 0xFFFF) ||| (data <<< 16)) % 4294967296 }
  else if type = H.instr A11_WRITE_DRAM then
    pure { s with dram := Function.update s.dram (s.dramAddr % dramLen) s.dramData }
  else if type = H.instr A12_SET_BUS then
    pure { s with busRegister := data &&& 15 }
  else if type = H.instr A13_CALL then do
    let v ← bus H { s with returnAddress := s.programCounter }
    pure { s with returnAddress := s.programCounter, programCounter := v % 65536 }
  else if type = H.instr A14_SET_B then do
    let v ← bus H s
    pure { s with b := v }
  else if type = H.instr A15_SET_ALU then do
    let v ← bus H s
    pure { s with aluFlags := v }
  else if type = H.instr B0_TIMER_SPEAKER_OFV then
    pure s
  else if type = H.instr B1_UART_OFV then do
    let v ← bus H s
    if v = 0 then throw Fault.divisionByZero
    else pure { s with trace := s.trace ++ [Event.uart_ofv (24000000 / v)] }
  else if type = H.instr B2_UART_CONFIG then do
    let word ← bus H s
    let parity_odd := decide ((word >>> 16) &&& 1 ≠ 0)
    let databits := (6 + ((word >>> 17) &&& 3)) % 256
    let parity_enabled := decide ((word >>> 19) &&& 1 ≠ 0)
    let stopbits := (1 + (word >>> 20)) % 256
    pure { s with
      uart_data_bits := databits
      trace := s.trace ++ [Event.uart_config databits parity_enabled parity_odd stopbits] }
  else if type = H.instr B3_UART_TX then do
    let mask := ((1 <<< (s.uart_data_bits + 1)) - 1) % 65536
    let v ← bus H s
    let word := (v &&& mask) % 65536
    pure { s with
      trace := s.trace ++ [Event.uart_tx s.uart_data_bits (uartText s.uart_data_bits v word)] }
  else if type = H.instr B5_KBD_TX then
    pure s
  else if type = H.instr B6_DATA_ADDR_RTC then
    pure s
  else if type = H.instr B7_OUT_DEBUG_COMMAND_RTC then do
    let v ← bus H s
    pure { s with trace := s.trace ++ [Event.out_parallel v] }
  else if type = H.instr B8_JL then
    pure (if H.lessThan s then { s with programCounter := data } else s)
  else if type = H.instr B9_TIMER_SPEAKER_FUNCTION then
    pure s
  else if type = H.instr B10_JG then
    pure (if H.greaterThan s then { s with programCounter := data } else s)
  else if type = H.instr B11_JE then
    pure (if H.equalThan s then { s with programCounter := data } else s)
  else if type = H.instr B12_SET_CACHE_DATA then do
    let v ← bus H s
    pure { s with cacheData := v }
  else if type = H.instr B13_SET_CACHE_ADDR then do
    let v ← bus H s
    pure { s with cacheAddr := v }
  else if type = H.instr B14_ON_OFF_ATX then
    pure s
  else if type = H.instr B15_WRITE_CACHE then
    pure { s with cache := Function.update s.cache (s.cacheAddr % cacheLen) s.cacheData }
  else if type = H.instr C0_TIMER then
    pure s
  else if type = H.instr C1_TIME then
    pure s
  else if type = H.instr C2_DRIVE_SERIAL_DATA then
    pure s
  else if type = H.instr C3_DRIVE_SERIAL_ADDR then
    pure s
  else if type = H.instr C4_DRIVE_SERIAL_FUNCTION then
    pure s
  else if type = H.instr C7_VGA_TEXT_COLOR then do
    let v ← bus H s
    pure { s with
      trace := s.trace ++ [Event.vga_C7_text_color ((v >>> 16) &&& 0xff) ((v >>> 24) &&& 0xff)] }
  else if type = H.instr C8_VGA_WRITE_VRAM then
    pure s
  else if type = H.instr C9_VGA_FUNCTION then
    pure s
  else if type = H.instr C10_VGA_TEXT_BLINK then
    pure s
  else if type = H.instr C11_VGA_PIXEL_COLOR then
    pure s
  else if type = H.instr C12_VGA_TEXT_WRITE then do
    let v ← bus H s
    pure { s with trace := s.trace ++ [Event.vga_C12_text_write (v &&& 0xff)] }
  else if type = H.instr C13_VGA_TEXT_CHAR then
    pure s
  else if type = H.instr C14_VGA_PIXEL_POS then
    pure s
  else if type = H.instr C15_VGA_TEXT_POS then do
    let v ← bus H s
    pure { s with
      trace := s.trace ++ [Event.vga_C15_text_position ((v >>> 7) &&& 0x1f) (v &&& 0x7f)] }
  else
    throw (Fault.unknownType type)

/-- The branch the `if`/`else if` chain of `handleInstruction` takes for an
opcode byte: the first opcode, in source order, whose value equals `type`. -/
def decode (H : Headers) (type : Nat) : Option instruction_type :=
  if type = H.instr A0_SET_DRAM_DATA then some A0_SET_DRAM_DATA
  else if type = H.instr A1_SET_CARRY_IN then some A1_SET_CARRY_IN
  else if type = H.instr A2_RETURN then some A2_RETURN
  else if type = H.instr A3_JLEQ then some A3_JLEQ
  else if type = H.instr A4_JGEQ then some A4_JGEQ
  else if type = H.instr A5_JMP then some A5_JMP
  else if type = H.instr A6_INC_DRAM_ADDR then some A6_INC_DRAM_ADDR
  else if type = H.instr A7_SET_DRAM_ADDR then some A7_SET_DRAM_ADDR
  else if type = H.instr A8_JNE then some A8_JNE
  else if type = H.instr A9_SET_A then some A9_SET_A
  else if type = H.instr A10_SET_HIGH then some A10_SET_HIGH
  else if type = H.instr A11_WRITE_DRAM then some A11_WRITE_DRAM
  else if type = H.instr A12_SET_BUS then some A12_SET_BUS
  else if type = H.instr A13_CALL then some A13_CALL
  else if type = H.instr A14_SET_B then some A14_SET_B
  else if type = H.instr A15_SET_ALU then some A15_SET_ALU
  else if type = H.instr B0_TIMER_SPEAKER_OFV then some B0_TIMER_SPEAKER_OFV
  else if type = H.instr B1_UART_OFV then some B1_UART_OFV
  else if type = H.instr B2_UART_CONFIG then some B2_UART_CONFIG
  else if type = H.instr B3_UART_TX then some B3_UART_TX
  else if type = H.instr B5_KBD_TX then some B5_KBD_TX
  else if type = H.instr B6_DATA_ADDR_RTC then some B6_DATA_ADDR_RTC
  else if type = H.instr B7_OUT_DEBUG_COMMAND_RTC then some B7_OUT_DEBUG_COMMAND_RTC
  else if type = H.instr B8_JL then some B8_JL
  else if type = H.instr B9_TIMER_SPEAKER_FUNCTION then some B9_TIMER_SPEAKER_FUNCTION
  else if type = H.instr B10_JG then some B10_JG
  else if type = H.instr B11_JE then some B11_JE
  else if type = H.instr B12_SET_CACHE_DATA then some B12_SET_CACHE_DATA
  else if type = H.instr B13_SET_CACHE_ADDR then some B13_SET_CACHE_ADDR
  else if type = H.instr B14_ON_OFF_ATX then some B14_ON_OFF_ATX
  else if type = H.instr B15_WRITE_CACHE then some B15_WRITE_CACHE
  else if type = H.instr C0_TIMER then some C0_TIMER
  else if type = H.instr C1_TIME then some C1_TIME
  else if type = H.instr C2_DRIVE_SERIAL_DATA then some C2_DRIVE_SERIAL_DATA
  else if type = H.instr C3_DRIVE_SERIAL_ADDR then some C3_DRIVE_SERIAL_ADDR
  else if type = H.instr C4_DRIVE_SERIAL_FUNCTION then some C4_DRIVE_SERIAL_FUNCTION
  else if type = H.instr C7_VGA_TEXT_COLOR then some C7_VGA_TEXT_COLOR
  else if type = H.instr C8_VGA_WRITE_VRAM then some C8_VGA_WRITE_VRAM
  else if type = H.instr C9_VGA_FUNCTION then some C9_VGA_FUNCTION
  else if type = H.instr C10_VGA_TEXT_BLINK then some C10_VGA_TEXT_BLINK
  else if type = H.instr C11_VGA_PIXEL_COLOR then some C11_VGA_PIXEL_COLOR
  else if type = H.instr C12_VGA_TEXT_WRITE then some C12_VGA_TEXT_WRITE
  else if type = H.instr C13_VGA_TEXT_CHAR then some C13_VGA_TEXT_CHAR
  else if type = H.instr C14_VGA_PIXEL_POS then some C14_VGA_PIXEL_POS
  else if type = H.instr C15_VGA_TEXT_POS then some C15_VGA_TEXT_POS
  else none

/-- The handler bodies of `handleInstruction`, one arm per branch of the
`if`/`else if` chain (lines 82-201), for an opcode that has been identified;
`s` is the state after the fold of line 80 and `data` the immediate. -/
def exec (H : Headers) (op : instruction_type) (s : State) (data : Nat) : Except Fault State :=
  match op with
  | A0_SET_DRAM_DATA => do
    let v ← bus H s
    pure { s with dramData := v }
  | A1_SET_CARRY_IN => do
    let v ← bus H s
    pure { s with carryIn := decide (v &&& 8 ≠ 0) }
  | A2_RETURN =>
    pure { s with programCounter := s.returnAddress }
  | A3_JLEQ =>
    pure (if H.lessOrEqualThan s then { s with programCounter := data } else s)
  | A4_JGEQ =>
    pure (if H.greaterOrEqualThan s then { s with programCounter := data } else s)
  | A5_JMP =>
    pure { s with programCounter := data }
  | A6_INC_DRAM_ADDR =>
    pure { s with dramAddr := (s.dramAddr + 1) % 4294967296 }
  | A7_SET_DRAM_ADDR => do
    let v ← bus H s
    pure { s with dramAddr := v }
  | A8_JNE =>
    pure (if H.notEqualThan s then { s with programCounter := data } else s)
  | A9_SET_A => do
    let v ← bus H s
    pure { s with a := v }
  | A10_SET_HIGH =>
    pure { s with dataLiteral := ((s.dataLiteral &&& 0xFFFF) ||| (data <<< 16)) % 4294967296 }
  | A11_WRITE_DRAM =>
    pure { s with dram := Function.update s.dram (s.dramAddr % dramLen) s.dramData }
  | A12_SET_BUS =>
    pure { s with busRegister := data &&& 15 }
  | A13_CALL => do
    let v ← bus H { s with returnAddress := s.programCounter }
    pure { s with returnAddress := s.programCounter, programCounter := v % 65536 }
  | A14_SET_B => do
    let v ← bus H s
    pure { s with b := v }
  | A15_SET_ALU => do
    let v ← bus H s
    pure { s with aluFlags := v }
  | B0_TIMER_SPEAKER_OFV =>
    pure s
  | B1_UART_OFV => do
    let v ← bus H s
    if v = 0 then throw Fault.divisionByZero
    else pure { s with trace := s.trace ++ [Event.uart_ofv (24000000 / v)] }
  | B2_UART_CONFIG => do
    let word ← bus H s
    let parity_odd := decide ((word >>> 16) &&& 1 ≠ 0)
    let databits := (6 + ((word >>> 17) &&& 3)) % 256
    let parity_enabled := decide ((word >>> 19) &&& 1 ≠ 0)
    let stopbits := (1 + (word >>> 20)) % 256
    pure { s with
      uart_data_bits := databits
      trace := s.trace ++ [Event.uart_config databits parity_enabled parity_odd stopbits] }
  | B3_UART_TX => do
    let mask := ((1 <<< (s.uart_data_bits + 1)) - 1) % 65536
    let v ← bus H s
    let word := (v &&& mask) % 65536
    pure { s with
      trace := s.trace ++ [Event.uart_tx s.uart_data_bits (uartText s.uart_data_bits v word)] }
  | B5_KBD_TX =>
    pure s
  | B6_DATA_ADDR_RTC =>
    pure s
  | B7_OUT_DEBUG_COMMAND_RTC => do
    let v ← bus H s
    pure { s with trace := s.trace ++ [Event.out_parallel v] }
  | B8_JL =>
    pure (if H.lessThan s then { s with programCounter := data } else s)
  | B9_TIMER_SPEAKER_FUNCTION =>
    pure s
  | B10_JG =>
    pure (if H.greaterThan s then { s with programCounter := data } else s)
  | B11_JE =>
    pure (if H.equalThan s then { s with programCounter := data } else s)
  | B12_SET_CACHE_DATA => do
    let v ← bus H s
    pure { s with cacheData := v }
  | B13_SET_CACHE_ADDR => do
    let v ← bus H s
    pure { s with cacheAddr := v }
  | B14_ON_OFF_ATX =>
    pure s
  | B15_WRITE_CACHE =>
    pure { s with cache := Function.update s.cache (s.cacheAddr % cacheLen) s.cacheData }
  | C0_TIMER =>
    pure s
  | C1_TIME =>
    pure s
  | C2_DRIVE_SERIAL_DATA =>
    pure s
  | C3_DRIVE_SERIAL_ADDR =>
    pure s
  | C4_DRIVE_SERIAL_FUNCTION =>
    pure s
  | C7_VGA_TEXT_COLOR => do
    let v ← bus H s
    pure { s with
      trace := s.trace ++ [Event.vga_C7_text_color ((v >>> 16) &&& 0xff) ((v >>> 24) &&& 0xff)] }
  | C8_VGA_WRITE_VRAM =>
    pure s
  | C9_VGA_FUNCTION =>
    pure s
  | C10_VGA_TEXT_BLINK =>
    pure s
  | C11_VGA_PIXEL_COLOR =>
    pure s
  | C12_VGA_TEXT_WRITE => do
    let v ← bus H s
    pure { s with trace := s.trace ++ [Event.vga_C12_text_write (v &&& 0xff)] }
  | C13_VGA_TEXT_CHAR =>
    pure s
  | C14_VGA_PIXEL_POS =>
    pure s
  | C15_VGA_TEXT_POS => do
    let v ← bus H s
    pure { s with
      trace := s.trace ++ [Event.vga_C15_text_position ((v >>> 7) &&& 0x1f) (v &&& 0x7f)] }

/-- The dispatch of `handleInstruction` after the decode: the handler of the
identified opcode, or the `UNKNOWN TYPE` exit. -/
def execDecoded (H : Headers) (s : State) (type data : Nat) :
    Option instruction_type → Except Fault State
  | some op => exec H op s data
  | none => throw (Fault.unknownType type)

/-- Running a sequence of instruction words through `handleInstruction`, one
after the other, stopping at the first fault. -/
def runInstructions (H : Headers) : State → List Nat → Except Fault State
  | s, [] => .ok s
  | s, w :: ws =>
    match handleInstruction H s w with
    | .ok s1 => runInstructions H s1 ws
    | .error e => .error e

/-! ## The fetch-execute loop (emu.cpp, lines 248-259) -/

/-- Lines 253-254: `instruction = program[programCounter++]` on a `uint16_t`
counter, then `handleInstruction(instruction)`. -/
def fetchExecute (H : Headers) (s : State) : Except Fault State :=
  let instruction := s.program s.programCounter
  handleInstruction H { s with programCounter := (s.programCounter + 1) % 65536 } instruction

/-- The globals together with the local `display_counter` of `main`. -/
structure Emulator where
  machine : State
  display_counter : Nat

/-- One pass through the body of the `while` loop (lines 253-258). -/
def loopBody (H : Headers) (e : Emulator) : Except Fault Emulator :=
  match fetchExecute H e.machine with
  | .error f => .error f
  | .ok m =>
    if e.display_counter = instructions_per_display_update then
      .ok { machine := { m with trace := m.trace ++ [Event.display_update] },
            display_counter := 0 }
    else
      .ok { machine := m, display_counter := e.display_counter + 1 }

/-- The first `n` passes through the `while` loop. -/
def mainLoop (H : Headers) : Nat → Emulator → Except Fault Emulator
  | 0, e => .ok e
  | n + 1, e =>
    match loopBody H e with
    | .ok e1 => mainLoop H n e1
    | .error f => .error f

/-- How many times `display_update()` has been called so far. -/
def presents (s : State) : Nat :=
  s.trace.count Event.display_update

/-- The emulator as `main` enters the `while` loop (lines 248-249). -/
def start (H : Headers) (program : Nat → Nat) : Emulator :=
  { machine := init H program, display_counter := 0 }

/-! ## Program loading (emu.cpp, lines 208-228) -/

/-- The `for` loop of `loadProgram` (lines 220-226) with `count` iterations
left, at index `i`, `stream` being what the file still holds past the read
position: `fread` takes the next three bytes into a `uint8_t` array, the word
`(bytes[2] << 16) | (bytes[1] << 8) | bytes[0]` goes to `program[i]`.  The loop
runs `fileLen / 3` times, so the stream never holds fewer than three bytes
when it reads; that case stops the model. -/
def loadLoop : Nat → Nat → List Nat → (Nat → Nat) → (Nat → Nat)
  | 0, _, _, program => program
  | count + 1, i, b0 :: b1 :: b2 :: stream, program =>
    loadLoop count (i + 1) stream
      (Function.update program i
        ((((b2 % 256) <<< 16) ||| ((b1 % 256) <<< 8) ||| (b0 % 256)) % 4294967296))
  | _ + 1, _, _, program => program

/-- The function `loadProgram`: `file` is `none` when `fopen` fails (the
`COULD NOT OPEN PROGRAM FILE` exit, lines 211-214) and otherwise the bytes of
the file; the result is program memory after the load. -/
def loadProgram (file : Option (List Nat)) (program : Nat → Nat) : Option (Nat → Nat) :=
  match file with
  | none => none
  | some bytes => some (loadLoop (bytes.length / 3) 0 bytes program)

/-! ## A sample instance of the headers

The theorems below hold for every well-formed `Headers`.  To evaluate the
embedding on concrete inputs one instance is fixed here: opcode `An` is `n`,
`Bn` is `16 + n`, `Cn` is `32 + n`; the selectors are numbered in the order of
the `case` labels of `bus()`, except that `REG_LITERAL` is `5` (the selector
value the loop scenario of the specification uses for the literal) and
`REG_DRAM_DATA` is `15`; the comparisons read the three low bits of `aluFlags`
(bit 0: equal, bit 1: less, bit 2: greater). -/

/-- Sample opcode values. -/
def sampleInstr : instruction_type → Nat
  | A0_SET_DRAM_DATA => 0 | A1_SET_CARRY_IN => 1 | A2_RETURN => 2 | A3_JLEQ => 3
  | A4_JGEQ => 4 | A5_JMP => 5 | A6_INC_DRAM_ADDR => 6 | A7_SET_DRAM_ADDR => 7
  | A8_JNE => 8 | A9_SET_A => 9 | A10_SET_HIGH => 10 | A11_WRITE_DRAM => 11
  | A12_SET_BUS => 12 | A13_CALL => 13 | A14_SET_B => 14 | A15_SET_ALU => 15
  | B0_TIMER_SPEAKER_OFV => 16 | B1_UART_OFV => 17 | B2_UART_CONFIG => 18
  | B3_UART_TX => 19 | B5_KBD_TX => 21 | B6_DATA_ADDR_RTC => 22
  | B7_OUT_DEBUG_COMMAND_RTC => 23 | B8_JL => 24 | B9_TIMER_SPEAKER_FUNCTION => 25
  | B10_JG => 26 | B11_JE => 27 | B12_SET_CACHE_DATA => 28 | B13_SET_CACHE_ADDR => 29
  | B14_ON_OFF_ATX => 30 | B15_WRITE_CACHE => 31 | C0_TIMER => 32 | C1_TIME => 33
  | C2_DRIVE_SERIAL_DATA => 34 | C3_DRIVE_SERIAL_ADDR => 35
  | C4_DRIVE_SERIAL_FUNCTION => 36 | C7_VGA_TEXT_COLOR => 39 | C8_VGA_WRITE_VRAM => 40
  | C9_VGA_FUNCTION => 41 | C10_VGA_TEXT_BLINK => 42 | C11_VGA_PIXEL_COLOR => 43
  | C12_VGA_TEXT_WRITE => 44 | C13_VGA_TEXT_CHAR => 45 | C14_VGA_PIXEL_POS => 46
  | C15_VGA_TEXT_POS => 47

/-- Sample selector values. -/
def sampleReg : bus_register → Nat
  | REG_DRIVE_SERIAL => 0 | REG_RTC => 1 | REG_UNUSED => 2 | REG_KBD => 3
  | REG_UART => 4 | REG_LITERAL => 5 | REG_DRAM_ADDR => 6 | REG_CACHE_DATA => 7
  | REG_SHIFT_LEFT_A => 8 | REG_A_AND_B => 9 | REG_SHIFT_RIGHT_A => 10
  | REG_A_XOR_B => 11 | REG_A_OR_B => 12 | REG_A_PLUS_B => 13 | REG_STATE => 14
  | REG_DRAM_DATA => 15

/-- The sample headers. -/
def sampleHeaders : Headers where
  instr := sampleInstr
  reg := sampleReg
  equalThan := fun s => decide (s.aluFlags &&& 1 ≠ 0)
  notEqualThan := fun s => decide (s.aluFlags &&& 1 = 0)
  lessThan := fun s => decide (s.aluFlags &&& 2 ≠ 0)
  lessOrEqualThan := fun s => decide (s.aluFlags &&& 3 ≠ 0)
  greaterThan := fun s => decide (s.aluFlags &&& 4 ≠ 0)
  greaterOrEqualThan := fun s => decide (s.aluFlags &&& 5 ≠ 0)

/-- The instruction word with opcode byte `type` and immediate `data`. -/
def word (type data : Nat) : Nat :=
  (type <<< 16) ||| data

/-- A sample program: a call at address 0 to address 7, returns elsewhere. -/
def callProgram (i : Nat) : Nat :=
  if i = 0 then word 13 7 else word 2 0

/-- A sample program: a call at address 0 to address 7, a second call at
address 7 to address 9, returns elsewhere. -/
def nestedCallProgram (i : Nat) : Nat :=
  if i = 0 then word 13 7 else if i = 7 then word 13 9 else word 2 0

/-- The three-instruction loop of the specification at the sample headers:
`A12_SET_BUS` with immediate 5, `A9_SET_A` with immediate 0, `A5_JMP` to 0. -/
def loopProgram (i : Nat) : Nat :=
  if i = 0 then word 12 5 else if i = 1 then word 9 0 else if i = 2 then word 5 0 else 0

/-- The three-instruction loop with the immediate of its `A9_SET_A` left open:
`A12_SET_BUS` with immediate 5, `A9_SET_A` with immediate `d`, `A5_JMP` to 0. -/
def loopProgramWith (d i : Nat) : Nat :=
  if i = 0 then word 12 5 else if i = 1 then word 9 d else if i = 2 then word 5 0 else 0

/-- The machine is about to fetch the instruction at `pc` of `program`, and the
high half of its literal is `hi`. -/
def loopStage (program : Nat → Nat) (hi pc : Nat) (s : State) : Prop :=
  s.program = program ∧ s.programCounter = pc ∧ s.dataLiteral &&& 0xFFFF0000 = hi

/-- What stays true of the machine while the three-instruction loop runs from
the initial state: the counter is at one of the three instructions, the
selector is 5 once the first of them has run, and the literal's high half,
the operands `a` and `b`, the carry, both address latches and the memory
words they point at are zero. -/
def loopInvariant (program : Nat → Nat) (s : State) : Prop :=
  s.program = program
  ∧ (s.programCounter = 0 ∨ (s.programCounter = 1 ∧ s.busRegister = 5) ∨ s.programCounter = 2)
  ∧ s.dataLiteral < 65536 ∧ s.a = 0 ∧ s.b = 0 ∧ s.carryIn = false
  ∧ s.dramAddr = 0 ∧ s.dram 0 = 0 ∧ s.cacheAddr = 0 ∧ s.cache 0 = 0

/-! ## Theorems -/

/-! ### Bit-level facts about the decode and the literal fold -/

theorem and_ffff (x : Nat) : x &&& 0xFFFF = x % 65536 :=
  Nat.and_pow_two_sub_one_eq_mod x 16

theorem and_15 (x : Nat) : x &&& 15 = x % 16 :=
  Nat.and_pow_two_sub_one_eq_mod x 4

theorem testBit_ffff (i : Nat) : Nat.testBit 0xFFFF i = decide (i < 16) := by
  have : (0xFFFF : Nat) = 2 ^ 16 - 1 := by norm_num
  rw [this, Nat.testBit_two_pow_sub_one]

theorem testBit_ffff0000 (i : Nat) :
    Nat.testBit 0xFFFF0000 i = (decide (16 ≤ i) && decide (i < 32)) := by
  have : (0xFFFF0000 : Nat) = (2 ^ 16 - 1) <<< 16 := by decide
  rw [this, Nat.testBit_shiftLeft, Nat.testBit_two_pow_sub_one]
  by_cases h : 16 ≤ i <;> simp [h]
  omega

theorem testBit_high_of_lt (d i : Nat) (hd : d < 65536) (hi : 16 ≤ i) :
    d.testBit i = false :=
  Nat.testBit_lt_two_pow (lt_of_lt_of_le hd (by
    calc 65536 = 2 ^ 16 := by norm_num
      _ ≤ 2 ^ i := Nat.pow_le_pow_right (by norm_num) hi))

/-- After the fold of line 80 the low half of the literal is the immediate. -/
theorem fold_low (l d : Nat) (hd : d < 65536) :
    ((l &&& 0xFFFF0000) ||| d) &&& 0xFFFF = d := by
  apply Nat.eq_of_testBit_eq
  intro i
  simp only [Nat.testBit_and, Nat.testBit_or, testBit_ffff, testBit_ffff0000]
  by_cases h : i < 16
  · have : ¬ 16 ≤ i := by omega
    simp [h, this]
  · simp [h, testBit_high_of_lt d i hd (by omega)]

/-- The fold of line 80 leaves the high half of the literal as it was. -/
theorem fold_high (l d : Nat) (hd : d < 65536) :
    ((l &&& 0xFFFF0000) ||| d) &&& 0xFFFF0000 = l &&& 0xFFFF0000 := by
  apply Nat.eq_of_testBit_eq
  intro i
  simp only [Nat.testBit_and, Nat.testBit_or, testBit_ffff0000]
  by_cases h : 16 ≤ i
  · simp [testBit_high_of_lt d i hd h]
  · simp [h]

/-- A value below `2^16` has no bit in the high half. -/
theorem and_ffff0000_of_lt (d : Nat) (hd : d < 65536) : d &&& 0xFFFF0000 = 0 := by
  apply Nat.eq_of_testBit_eq
  intro i
  simp only [Nat.testBit_and, testBit_ffff0000, Nat.zero_testBit]
  by_cases h : 16 ≤ i
  · simp [testBit_high_of_lt d i hd h]
  · simp [h]

theorem setHigh_value (d : Nat) (hd : d < 65536) :
    (d ||| (d <<< 16)) % 4294967296 = (d <<< 16) ||| d := by
  have h1 : d <<< 16 < 2 ^ 32 := by
    rw [Nat.shiftLeft_eq]; omega
  have h2 : d < 2 ^ 32 := by omega
  have h3 : d ||| (d <<< 16) < 4294967296 := Nat.or_lt_two_pow h2 h1
  rw [Nat.mod_eq_of_lt h3, Nat.lor_comm]

theorem instrData_lt (w : Nat) : instrData w < 65536 :=
  Nat.mod_lt _ (by norm_num)

theorem instrType_lt (w : Nat) : instrType w < 256 :=
  Nat.mod_lt _ (by norm_num)

/-! ### The sample headers are well formed -/

theorem sampleHeaders_wellFormed : sampleHeaders.WellFormed := by
  refine ⟨?_, ?_, ?_, ?_⟩
  · intro x y h
    cases x <;> cases y <;> first | rfl | exact absurd h (by decide)
  · intro op
    cases op <;> decide
  · intro x y h
    cases x <;> cases y <;> first | rfl | exact absurd h (by decide)
  · intro r
    cases r <;> decide

/-! ### The bus multiplexer -/

theorem ite_ok_eq_error {c : Prop} [Decidable c] {v : Nat} {e : Except Fault Nat} {f : Fault}
    (h : (if c then Except.ok v else e) = Except.error f) : ¬ c ∧ e = Except.error f := by
  by_cases hc : c
  · rw [if_pos hc] at h
    exact absurd h (by simp)
  · rw [if_neg hc] at h
    exact ⟨hc, h⟩

theorem bus_error (H : Headers) (s : State) (f : Fault) (h : bus H s = .error f) :
    f = .missingRegister s.busRegister ∧ ∀ r, s.busRegister ≠ H.reg r := by
  unfold bus at h
  obtain ⟨h1, h⟩ := ite_ok_eq_error h
  obtain ⟨h2, h⟩ := ite_ok_eq_error h
  obtain ⟨h3, h⟩ := ite_ok_eq_error h
  obtain ⟨h4, h⟩ := ite_ok_eq_error h
  obtain ⟨h5, h⟩ := ite_ok_eq_error h
  obtain ⟨h6, h⟩ := ite_ok_eq_error h
  obtain ⟨h7, h⟩ := ite_ok_eq_error h
  obtain ⟨h8, h⟩ := ite_ok_eq_error h
  obtain ⟨h9, h⟩ := ite_ok_eq_error h
  obtain ⟨h10, h⟩ := ite_ok_eq_error h
  refine ⟨(Except.error.inj h).symm, ?_⟩
  simp only [not_or] at h1 h10
  intro r
  cases r
  exacts [h1.1, h1.2.1, h1.2.2.1, h1.2.2.2.1, h1.2.2.2.2.1, h1.2.2.2.2.2,
           h2, h3, h4 , h5 , h6 , h7, h8, h9, h10.1, h10.2]

theorem bus_ok_of_selector (H : Headers) (s : State) (r : bus_register)
    (h : s.busRegister = H.reg r) : ∃ v, bus H s = .ok v := by
  cases hb : bus H s with
  | ok v => exact ⟨v, rfl⟩
  | error f => exact absurd h ((bus_error H s f hb).2 r)

/-- The value of `bus()` for each selector, when the enumerators are distinct. -/
theorem bus_of_selector (H : Headers) (hR : Function.Injective H.reg) (s : State)
    (r : bus_register) (h : s.busRegister = H.reg r) :
    bus H s = .ok (match r with
      | REG_DRIVE_SERIAL | REG_RTC | REG_UNUSED | REG_KBD | REG_UART | REG_DRAM_DATA =>
        s.dram (s.dramAddr % dramLen)
      | REG_DRAM_ADDR => s.dramAddr
      | REG_CACHE_DATA => s.cache (s.cacheAddr % cacheLen)
      | REG_SHIFT_LEFT_A => (s.a <<< 1) % 4294967296
      | REG_A_AND_B => s.a &&& s.b
      | REG_SHIFT_RIGHT_A => s.a >>> 1
      | REG_A_XOR_B => s.a ^^^ s.b
      | REG_A_OR_B => s.a ||| s.b
      | REG_A_PLUS_B => ((if s.carryIn then 1 else 0) + s.a + s.b) % 4294967296
      | REG_STATE | REG_LITERAL => s.dataLiteral) := by
  cases r <;> simp [bus, h, hR.eq_iff]

/-! ### Decode and dispatch -/

theorem ite_dispatch_step {ι β : Type} {c : Prop} [Decidable c] (k : Option ι → β)
    (a : ι) (d : Option ι) (X Y : β) (hX : k (some a) = X) (hY : k d = Y) :
    k (if c then some a else d) = (if c then X else Y) := by
  by_cases hc : c
  · rw [if_pos hc, if_pos hc, hX]
  · rw [if_neg hc, if_neg hc, hY]

/-- The chain of `handleInstruction` is its decode followed by the handler of
the decoded opcode. -/
theorem handleInstruction_eq (H : Headers) (s : State) (w : Nat) :
    handleInstruction H s w =
      execDecoded H (foldLiteral s (instrData w)) (instrType w) (instrData w)
        (decode H (instrType w)) := by
  symm
  unfold handleInstruction decode
  repeat (refine ite_dispatch_step _ _ _ _ _ rfl ?_)
  rfl

/-- With distinct opcode values every opcode decodes to itself. -/
theorem decode_instr (H : Headers) (hI : Function.Injective H.instr) (op : instruction_type) :
    decode H (H.instr op) = some op := by
  cases op <;> simp [decode, hI.eq_iff]

theorem ite_some_eq_none {ι : Type} {c : Prop} [Decidable c] {a : ι} {d : Option ι}
    (h : (if c then some a else d) = none) : ¬ c ∧ d = none := by
  by_cases hc : c
  · rw [if_pos hc] at h
    exact absurd h (by simp)
  · rw [if_neg hc] at h
    exact ⟨hc, h⟩

/-- The decode fails exactly on the bytes that are the value of no opcode. -/
theorem decode_eq_none_iff (H : Headers) (t : Nat) :
    decode H t = none ↔ ∀ op, t ≠ H.instr op := by
  constructor
  · intro h op
    unfold decode at h
    iterate 45 (obtain ⟨hn, h⟩ := ite_some_eq_none h)
    cases op <;> assumption
  · intro h
    simp [decode, h]

/-- The handler `handleInstruction` runs when the opcode byte is the value of
`op` and the opcode values are distinct. -/
theorem handleInstruction_of_type (H : Headers) (hI : Function.Injective H.instr) (s : State)
    (w : Nat) (op : instruction_type) (h : instrType w = H.instr op) :
    handleInstruction H s w = exec H op (foldLiteral s (instrData w)) (instrData w) := by
  rw [handleInstruction_eq, h, decode_instr H hI]
  rfl

/-! ### Frame facts about the handlers -/

/-- Only `bus()` reads the selector and the operands; the return slot is not
among them. -/
theorem bus_with_returnAddress (H : Headers) (s : State) (x : Nat) :
    bus H { s with returnAddress := x } = bus H s := rfl

/-- Every handler but that of `A10_SET_HIGH` leaves the literal as the fold of
line 80 made it. -/
theorem exec_dataLiteral (H : Headers) (op : instruction_type) (s s1 : State) (d : Nat)
    (hop : op ≠ A10_SET_HIGH) (h : exec H op s d = .ok s1) :
    s1.dataLiteral = s.dataLiteral := by
  cases op
  all_goals first
    | exact absurd rfl hop
    | (simp only [exec, pure, Except.pure, Except.ok.injEq] at h
       subst h
       first | rfl | (split <;> rfl))
    | (simp only [exec, bind, Except.bind, pure, Except.pure, bus_with_returnAddress] at h
       cases hb : bus H s with
       | error f => rw [hb] at h; exact absurd h (by simp)
       | ok v =>
         rw [hb] at h
         first
           | (simp only [Except.ok.injEq] at h
              subst h
              rfl)
           | (by_cases hv : v = 0
              · simp [hv, throw, throwThe, MonadExceptOf.throw] at h
              · simp only [hv, if_false, Except.ok.injEq] at h
                subst h
                rfl))

/-- The low half of `(d << 16) | d` is `d`. -/
theorem setHigh_low (d : Nat) (hd : d < 65536) : ((d <<< 16) ||| d) &&& 0xFFFF = d := by
  apply Nat.eq_of_testBit_eq
  intro i
  simp only [Nat.testBit_and, Nat.testBit_or, testBit_ffff, Nat.testBit_shiftLeft]
  by_cases h : i < 16
  · have : ¬ 16 ≤ i := by omega
    simp [h, this]
  · simp [h, testBit_high_of_lt d i hd (by omega)]

/-- The high half of `(d << 16) | d`, in place, is `d << 16`. -/
theorem setHigh_high (d : Nat) (hd : d < 65536) :
    ((d <<< 16) ||| d) &&& 0xFFFF0000 = d <<< 16 := by
  apply Nat.eq_of_testBit_eq
  intro i
  simp only [Nat.testBit_and, Nat.testBit_or, testBit_ffff0000, Nat.testBit_shiftLeft]
  by_cases h : 16 ≤ i
  · by_cases h32 : i < 32
    · simp [h, h32, testBit_high_of_lt d i hd h]
    · simp [h, h32, testBit_high_of_lt d (i - 16) hd (by omega)]
  · simp [h]

/-! ### C1: composing the literal -/

/-- C1, as stated, fails: in the initial state the instruction `B0` with
immediate 1 followed by `A10_SET_HIGH` with immediate 2 leaves the literal
equal to `0x20002`, not to `(2 << 16) | 1 = 0x20001`. -/
theorem C1_counterexample :
    (runInstructions sampleHeaders (init sampleHeaders fun _ => 0)
        [word 16 1, word 10 2]).map State.dataLiteral = .ok 131074
    ∧ instrData (word 16 1) = 1
    ∧ instrType (word 10 2) = sampleHeaders.instr A10_SET_HIGH
    ∧ instrData (word 10 2) = 2
    ∧ (131074 : Nat) ≠ (2 <<< 16) ||| 1 :=
  ⟨rfl, rfl, rfl, rfl, by decide⟩

/-- C1 (amended): after an instruction carrying immediate `X` the low half of
the literal is `X`, and an `A10_SET_HIGH` carrying immediate `Y` executed next
leaves the literal equal to `(Y << 16) | Y`: the set-high instruction folds
its own immediate into the low half before its handler copies it to the high
half. -/
theorem C1_setLow_then_setHigh (H : Headers) (hH : H.WellFormed) (s s1 : State)
    (w1 w2 X Y : Nat) (hX : instrData w1 = X) (h1 : handleInstruction H s w1 = .ok s1)
    (h2 : instrType w2 = H.instr A10_SET_HIGH) (hY : instrData w2 = Y) :
    s1.dataLiteral &&& 0xFFFF = X ∧
      ∃ s2, handleInstruction H s1 w2 = .ok s2 ∧ s2.dataLiteral = (Y <<< 16) ||| Y := by
  have hYlt : Y < 65536 := hY ▸ instrData_lt w2
  have hXlt : X < 65536 := hX ▸ instrData_lt w1
  constructor
  · rw [handleInstruction_eq] at h1
    cases hd : decode H (instrType w1) with
    | none => rw [hd] at h1; exact absurd h1 (by simp [execDecoded, throw, throwThe, MonadExceptOf.throw])
    | some op =>
      rw [hd] at h1
      simp only [execDecoded] at h1
      by_cases hop : op = A10_SET_HIGH
      · subst hop
        simp only [exec, pure, Except.pure, Except.ok.injEq] at h1
        subst h1
        simp only [foldLiteral, hX, fold_low _ _ hXlt, setHigh_value _ hXlt]
        exact setHigh_low X hXlt
      · rw [exec_dataLiteral H op _ _ _ hop h1]
        simp only [foldLiteral, hX]
        exact fold_low _ _ hXlt
  · refine ⟨_, handleInstruction_of_type H hH.1 s1 w2 _ h2, ?_⟩
    simp only [foldLiteral, hY, fold_low _ _ hYlt, setHigh_value _ hYlt]

/-- The order in which the two halves can be composed: `A10_SET_HIGH` carrying
`Y` first, then any other instruction carrying `X`, leaves `(Y << 16) | X`. -/
theorem setHigh_then_setLow (H : Headers) (hH : H.WellFormed) (s s2 : State)
    (w1 w2 X Y : Nat) (op : instruction_type)
    (h1 : instrType w1 = H.instr A10_SET_HIGH) (hY : instrData w1 = Y)
    (h2 : instrType w2 = H.instr op) (hop : op ≠ A10_SET_HIGH) (hX : instrData w2 = X)
    (hrun : runInstructions H s [w1, w2] = .ok s2) :
    s2.dataLiteral = (Y <<< 16) ||| X := by
  have hYlt : Y < 65536 := hY ▸ instrData_lt w1
  simp only [runInstructions, handleInstruction_of_type H hH.1 s w1 _ h1, exec, pure,
    Except.pure] at hrun
  cases hs : handleInstruction H _ w2 with
  | error f => rw [hs] at hrun; exact absurd hrun (by simp)
  | ok t =>
    rw [hs] at hrun
    simp only [Except.ok.injEq] at hrun
    subst hrun
    rw [handleInstruction_of_type H hH.1 _ w2 op h2] at hs
    rw [exec_dataLiteral H op _ _ _ hop hs]
    simp only [foldLiteral, hY, hX, fold_low _ _ hYlt, setHigh_value _ hYlt,
      setHigh_high _ hYlt]

/-- C1 (amended), at the sample headers: `B0` carrying 1, then `A10_SET_HIGH`
carrying 2, from the initial state. -/
theorem C1_setLow_then_setHigh_witness :
    handleInstruction sampleHeaders (init sampleHeaders fun _ => 0) (word 16 1)
        = .ok (foldLiteral (init sampleHeaders fun _ => 0) 1)
    ∧ (foldLiteral (init sampleHeaders fun _ => 0) 1).dataLiteral &&& 0xFFFF = 1
    ∧ ∃ s2, handleInstruction sampleHeaders (foldLiteral (init sampleHeaders fun _ => 0) 1)
          (word 10 2) = .ok s2 ∧ s2.dataLiteral = (2 <<< 16) ||| 2 :=
  ⟨rfl, C1_setLow_then_setHigh sampleHeaders sampleHeaders_wellFormed _ _ (word 16 1)
    (word 10 2) 1 2 rfl rfl rfl rfl⟩

/-! ### C2: the literal group of `bus()` -/

/-- C2, as stated, fails for the device placeholders: with the selector
`REG_UART`, literal 3 and `dram[0] = 7`, `bus()` returns 7. -/
theorem C2_counterexample :
    bus sampleHeaders { init sampleHeaders (fun _ => 0) with
        busRegister := sampleHeaders.reg REG_UART, dataLiteral := 3, dram := fun _ => 7 }
      = .ok 7
    ∧ (Except.ok 7 : Except Fault Nat) ≠ .ok 3 :=
  ⟨rfl, by simp⟩

/-- C2 (amended): with the selector `REG_LITERAL` or `REG_STATE`, `bus()`
returns the literal register; with one of the device placeholder selectors
(`REG_DRIVE_SERIAL`, `REG_RTC`, `REG_UNUSED`, `REG_KBD`, `REG_UART`) it returns
`dram[dramAddr % dramLen]`, as for `REG_DRAM_DATA`, whose `case` group they
share. -/
theorem C2_bus_literal_group (H : Headers) (hH : H.WellFormed) (s : State) :
    (s.busRegister = H.reg REG_LITERAL ∨ s.busRegister = H.reg REG_STATE →
      bus H s = .ok s.dataLiteral)
    ∧ (s.busRegister = H.reg REG_DRIVE_SERIAL ∨ s.busRegister = H.reg REG_RTC
        ∨ s.busRegister = H.reg REG_UNUSED ∨ s.busRegister = H.reg REG_KBD
        ∨ s.busRegister = H.reg REG_UART →
      bus H s = .ok (s.dram (s.dramAddr % dramLen))) := by
  constructor
  · rintro (h | h) <;> exact bus_of_selector H hH.2.2.1 s _ h
  · rintro (h | h | h | h | h) <;> exact bus_of_selector H hH.2.2.1 s _ h

/-- C2 (amended), at the sample headers, for `REG_STATE` and for `REG_KBD`. -/
theorem C2_bus_literal_group_witness :
    bus sampleHeaders { init sampleHeaders (fun _ => 0) with
        busRegister := 14, dataLiteral := 3, dram := fun _ => 7 } = .ok 3
    ∧ bus sampleHeaders { init sampleHeaders (fun _ => 0) with
        busRegister := 3, dataLiteral := 3, dram := fun _ => 7 } = .ok 7 :=
  ⟨(C2_bus_literal_group sampleHeaders sampleHeaders_wellFormed _).1 (Or.inr rfl),
   (C2_bus_literal_group sampleHeaders sampleHeaders_wellFormed _).2
     (Or.inr (Or.inr (Or.inr (Or.inl rfl))))⟩

/-! ### C3, C4: call and return -/

/-- The fetch of an `A13_CALL` with a defined selector: the return slot takes
the incremented counter, the counter the low 16 bits of the bus. -/
theorem fetchExecute_call (H : Headers) (hH : H.WellFormed) (s : State) (r : bus_register)
    (hsel : s.busRegister = H.reg r)
    (hcall : instrType (s.program s.programCounter) = H.instr A13_CALL) :
    ∃ s1, fetchExecute H s = .ok s1 ∧ s1.returnAddress = (s.programCounter + 1) % 65536 := by
  obtain ⟨v, hv⟩ := bus_ok_of_selector H
    (foldLiteral { s with programCounter := (s.programCounter + 1) % 65536 }
      (instrData (s.program s.programCounter))) r hsel
  have hfe : fetchExecute H s = .ok
      { foldLiteral { s with programCounter := (s.programCounter + 1) % 65536 }
          (instrData (s.program s.programCounter)) with
        returnAddress := (s.programCounter + 1) % 65536
        programCounter := v % 65536 } := by
    simp only [fetchExecute, handleInstruction_of_type H hH.1 _ _ _ hcall, exec,
      bus_with_returnAddress, hv, bind, Except.bind, pure, Except.pure]
    rfl
  exact ⟨_, hfe, rfl⟩

/-- An `A2_RETURN` copies the return slot into the counter and keeps the slot. -/
theorem handleInstruction_return (H : Headers) (hH : H.WellFormed) (t : State) (w : Nat)
    (hret : instrType w = H.instr A2_RETURN) :
    ∃ t1, handleInstruction H t w = .ok t1 ∧ t1.programCounter = t.returnAddress
      ∧ t1.returnAddress = t.returnAddress :=
  ⟨_, handleInstruction_of_type H hH.1 t w _ hret, rfl, rfl⟩

/-- A run of `A2_RETURN` instructions keeps the return slot and, if not empty,
ends with the counter equal to it. -/
theorem runInstructions_returns (H : Headers) (hH : H.WellFormed) (ws : List Nat)
    (hws : ∀ w ∈ ws, instrType w = H.instr A2_RETURN) (t : State) :
    ∃ u, runInstructions H t ws = .ok u ∧ u.returnAddress = t.returnAddress
      ∧ (ws ≠ [] → u.programCounter = t.returnAddress) := by
  induction ws generalizing t with
  | nil => exact ⟨t, rfl, rfl, fun h => absurd rfl h⟩
  | cons w ws ih =>
    obtain ⟨t1, h1, hpc, hra⟩ :=
      handleInstruction_return H hH t w (hws w (List.mem_cons_self _ _))
    obtain ⟨u, hu, hura, hupc⟩ := ih (fun x hx => hws x (List.mem_cons_of_mem _ hx)) t1
    refine ⟨u, ?_, hura.trans hra, fun _ => ?_⟩
    · simp only [runInstructions, h1, hu]
    · cases ws with
      | nil =>
        simp only [runInstructions, Except.ok.injEq] at hu
        rw [← hu, hpc]
      | cons x xs => rw [hupc (List.cons_ne_nil _ _), hra]

/-- C3: an `A13_CALL` fetched at address `p` stores `(p + 1) mod 65536` in the
return slot, and an `A2_RETURN` fetched in any later state in which the slot
still holds that value sets the program counter to `(p + 1) mod 65536`. -/
theorem C3_call_then_return (H : Headers) (hH : H.WellFormed) (s : State) (p : Nat)
    (r : bus_register) (hp : s.programCounter = p) (hsel : s.busRegister = H.reg r)
    (hcall : instrType (s.program p) = H.instr A13_CALL) :
    ∃ s1, fetchExecute H s = .ok s1 ∧ s1.returnAddress = (p + 1) % 65536 ∧
      ∀ t : State, t.returnAddress = s1.returnAddress →
        instrType (t.program t.programCounter) = H.instr A2_RETURN →
        ∃ t1, fetchExecute H t = .ok t1 ∧ t1.programCounter = (p + 1) % 65536 := by
  subst hp
  obtain ⟨s1, h1, hra⟩ := fetchExecute_call H hH s r hsel hcall
  refine ⟨s1, h1, hra, fun t ht hret => ?_⟩
  obtain ⟨t1, ht1, hpc, _⟩ := handleInstruction_return H hH
    { t with programCounter := (t.programCounter + 1) % 65536 } _ hret
  exact ⟨t1, ht1, by rw [hpc, ← hra, ← ht]⟩

/-- C4: the return address is a single slot.  After a call fetched at `p1`
and, with the slot untouched in between, a second call fetched at `p2`, the
slot holds `(p2 + 1) mod 65536`; every non-empty run of `A2_RETURN`
instructions executed next ends with the program counter at
`(p2 + 1) mod 65536`, hence not at the first return address when the two
differ. -/
theorem C4_single_return_slot (H : Headers) (hH : H.WellFormed) (s : State) (p1 : Nat)
    (r1 : bus_register) (hp1 : s.programCounter = p1) (hsel1 : s.busRegister = H.reg r1)
    (hcall1 : instrType (s.program p1) = H.instr A13_CALL) :
    ∃ s1, fetchExecute H s = .ok s1 ∧ s1.returnAddress = (p1 + 1) % 65536 ∧
      ∀ (t : State) (p2 : Nat) (r2 : bus_register),
        t.returnAddress = s1.returnAddress → t.programCounter = p2 →
        t.busRegister = H.reg r2 → instrType (t.program p2) = H.instr A13_CALL →
        ∃ t1, fetchExecute H t = .ok t1 ∧ t1.returnAddress = (p2 + 1) % 65536 ∧
          ∀ ws : List Nat, ws ≠ [] → (∀ w ∈ ws, instrType w = H.instr A2_RETURN) →
            ∃ u, runInstructions H t1 ws = .ok u
              ∧ u.programCounter = (p2 + 1) % 65536
              ∧ u.returnAddress = (p2 + 1) % 65536
              ∧ ((p1 + 1) % 65536 ≠ (p2 + 1) % 65536 →
                  u.programCounter ≠ (p1 + 1) % 65536) := by
  subst hp1
  obtain ⟨s1, h1, hra1⟩ := fetchExecute_call H hH s r1 hsel1 hcall1
  refine ⟨s1, h1, hra1, fun t p2 r2 _ hp2 hsel2 hcall2 => ?_⟩
  subst hp2
  obtain ⟨t1, h2, hra2⟩ := fetchExecute_call H hH t r2 hsel2 hcall2
  refine ⟨t1, h2, hra2, fun ws hne hws => ?_⟩
  obtain ⟨u, hu, hura, hupc⟩ := runInstructions_returns H hH ws hws t1
  refine ⟨u, hu, ?_, ?_, fun hdiff => ?_⟩
  · rw [hupc hne, hra2]
  · rw [hura, hra2]
  · rw [hupc hne, hra2]
    exact fun h => hdiff h.symm

/-- C3 at the sample headers: `callProgram` from the initial state; the call
at 0 jumps to 7, the return fetched there comes back to 1. -/
theorem C3_call_then_return_witness :
    ∃ s1 t1, fetchExecute sampleHeaders (init sampleHeaders callProgram) = .ok s1
      ∧ s1.returnAddress = 1 ∧ s1.programCounter = 7
      ∧ fetchExecute sampleHeaders s1 = .ok t1 ∧ t1.programCounter = 1 := by
  obtain ⟨s1, h1, hra, hret⟩ := C3_call_then_return sampleHeaders sampleHeaders_wellFormed
    (init sampleHeaders callProgram) 0 REG_LITERAL rfl rfl rfl
  have hs1 : s1 = { foldLiteral { init sampleHeaders callProgram with programCounter := 1 } 7
      with returnAddress := 1, programCounter := 7 } :=
    (Except.ok.inj (h1.symm.trans rfl))
  obtain ⟨t1, ht1, hpc⟩ := hret s1 rfl (by subst hs1; rfl)
  exact ⟨s1, t1, h1, hra, by subst hs1; rfl, ht1, hpc⟩

/-- C4 at the sample headers: `nestedCallProgram` from the initial state; after
the calls at 0 and at 7, two returns in a row both land on 8, never on 1. -/
theorem C4_single_return_slot_witness :
    ∃ s1 t1 u, fetchExecute sampleHeaders (init sampleHeaders nestedCallProgram) = .ok s1
      ∧ s1.returnAddress = 1 ∧ fetchExecute sampleHeaders s1 = .ok t1
      ∧ t1.returnAddress = 8
      ∧ runInstructions sampleHeaders t1 [word 2 0, word 2 0] = .ok u
      ∧ u.programCounter = 8 ∧ u.programCounter ≠ 1 := by
  obtain ⟨s1, h1, hra, hnext⟩ := C4_single_return_slot sampleHeaders sampleHeaders_wellFormed
    (init sampleHeaders nestedCallProgram) 0 REG_LITERAL rfl rfl rfl
  have hs1 : s1 = { foldLiteral { init sampleHeaders nestedCallProgram with
      programCounter := 1 } 7 with returnAddress := 1, programCounter := 7 } :=
    (Except.ok.inj (h1.symm.trans rfl))
  obtain ⟨t1, ht1, hra2, hrets⟩ := hnext s1 7 REG_LITERAL rfl (by subst hs1; rfl)
    (by subst hs1; rfl) (by subst hs1; rfl)
  obtain ⟨u, hu, hpc, _, hne⟩ := hrets [word 2 0, word 2 0] (by simp)
    (by intro w hw; simp at hw; subst hw; rfl)
  exact ⟨s1, t1, u, h1, hra, ht1, hra2, hu, hpc, hne (by decide)⟩

/-! ### C5: addresses wrap modulo the bank length -/

/-- Both bank lengths divide `2^32`, so adding the length in 32-bit arithmetic
does not change the index. -/
theorem dram_index_alias (A : Nat) : ((A + dramLen) % 4294967296) % dramLen = A % dramLen := by
  simp only [dramLen]
  omega

theorem cache_index_alias (A : Nat) :
    ((A + cacheLen) % 4294967296) % cacheLen = A % cacheLen := by
  simp only [cacheLen]
  omega

/-- A handler that stores the bus value in a latch, given the bus value. -/
theorem handleInstruction_setDramAddr (H : Headers) (hH : H.WellFormed) (s : State) (w v : Nat)
    (hw : instrType w = H.instr A7_SET_DRAM_ADDR)
    (hb : bus H (foldLiteral s (instrData w)) = .ok v) :
    handleInstruction H s w = .ok { foldLiteral s (instrData w) with dramAddr := v } := by
  simp only [handleInstruction_of_type H hH.1 _ _ _ hw, exec, hb, bind, Except.bind, pure,
    Except.pure]

theorem handleInstruction_setDramData (H : Headers) (hH : H.WellFormed) (s : State) (w v : Nat)
    (hw : instrType w = H.instr A0_SET_DRAM_DATA)
    (hb : bus H (foldLiteral s (instrData w)) = .ok v) :
    handleInstruction H s w = .ok { foldLiteral s (instrData w) with dramData := v } := by
  simp only [handleInstruction_of_type H hH.1 _ _ _ hw, exec, hb, bind, Except.bind, pure,
    Except.pure]

theorem handleInstruction_writeDram (H : Headers) (hH : H.WellFormed) (s : State) (w : Nat)
    (hw : instrType w = H.instr A11_WRITE_DRAM) :
    handleInstruction H s w = .ok { foldLiteral s (instrData w) with
      dram := Function.update s.dram (s.dramAddr % dramLen) s.dramData } := by
  simp only [handleInstruction_of_type H hH.1 _ _ _ hw, exec, pure, Except.pure]
  rfl

theorem handleInstruction_setCacheAddr (H : Headers) (hH : H.WellFormed) (s : State)
    (w v : Nat) (hw : instrType w = H.instr B13_SET_CACHE_ADDR)
    (hb : bus H (foldLiteral s (instrData w)) = .ok v) :
    handleInstruction H s w = .ok { foldLiteral s (instrData w) with cacheAddr := v } := by
  simp only [handleInstruction_of_type H hH.1 _ _ _ hw, exec, hb, bind, Except.bind, pure,
    Except.pure]

theorem handleInstruction_setCacheData (H : Headers) (hH : H.WellFormed) (s : State)
    (w v : Nat) (hw : instrType w = H.instr B12_SET_CACHE_DATA)
    (hb : bus H (foldLiteral s (instrData w)) = .ok v) :
    handleInstruction H s w = .ok { foldLiteral s (instrData w) with cacheData := v } := by
  simp only [handleInstruction_of_type H hH.1 _ _ _ hw, exec, hb, bind, Except.bind, pure,
    Except.pure]

theorem handleInstruction_writeCache (H : Headers) (hH : H.WellFormed) (s : State) (w : Nat)
    (hw : instrType w = H.instr B15_WRITE_CACHE) :
    handleInstruction H s w = .ok { foldLiteral s (instrData w) with
      cache := Function.update s.cache (s.cacheAddr % cacheLen) s.cacheData } := by
  simp only [handleInstruction_of_type H hH.1 _ _ _ hw, exec, pure, Except.pure]
  rfl

/-- C5: for DRAM (`L = dramLen`) and for the cache (`L = cacheLen`): the
set-address instruction latches the bus value `A`, the set-data instruction
latches the bus value `v`, the commit stores `v` at index `A mod L` and
nowhere else, and once the set-address instruction has latched
`(A + L) mod 2^32`, `bus()` with the bank's data selector returns `v`.  Between
the steps the machine may do anything that keeps the latches and the bank. -/
theorem C5_bank_alias (H : Headers) (hH : H.WellFormed) (A v : Nat) :
    (∀ (s0 : State) (w1 : Nat), instrType w1 = H.instr A7_SET_DRAM_ADDR →
      bus H (foldLiteral s0 (instrData w1)) = .ok A →
      ∃ s1, handleInstruction H s0 w1 = .ok s1 ∧ s1.dramAddr = A ∧
      ∀ (t1 : State) (w2 : Nat), t1.dramAddr = A →
        instrType w2 = H.instr A0_SET_DRAM_DATA →
        bus H (foldLiteral t1 (instrData w2)) = .ok v →
      ∃ s2, handleInstruction H t1 w2 = .ok s2 ∧ s2.dramAddr = A ∧ s2.dramData = v ∧
      ∀ (t2 : State) (w3 : Nat), t2.dramAddr = A → t2.dramData = v →
        instrType w3 = H.instr A11_WRITE_DRAM →
      ∃ s3, handleInstruction H t2 w3 = .ok s3 ∧
        s3.dram = Function.update t2.dram (A % dramLen) v ∧
      ∀ (t3 : State) (w4 : Nat), t3.dram = s3.dram →
        instrType w4 = H.instr A7_SET_DRAM_ADDR →
        bus H (foldLiteral t3 (instrData w4)) = .ok ((A + dramLen) % 4294967296) →
      ∃ s4, handleInstruction H t3 w4 = .ok s4 ∧
      ∀ t4 : State, t4.dram = s4.dram → t4.dramAddr = s4.dramAddr →
        t4.busRegister = H.reg REG_DRAM_DATA → bus H t4 = .ok v)
    ∧
    (∀ (s0 : State) (w1 : Nat), instrType w1 = H.instr B13_SET_CACHE_ADDR →
      bus H (foldLiteral s0 (instrData w1)) = .ok A →
      ∃ s1, handleInstruction H s0 w1 = .ok s1 ∧ s1.cacheAddr = A ∧
      ∀ (t1 : State) (w2 : Nat), t1.cacheAddr = A →
        instrType w2 = H.instr B12_SET_CACHE_DATA →
        bus H (foldLiteral t1 (instrData w2)) = .ok v →
      ∃ s2, handleInstruction H t1 w2 = .ok s2 ∧ s2.cacheAddr = A ∧ s2.cacheData = v ∧
      ∀ (t2 : State) (w3 : Nat), t2.cacheAddr = A → t2.cacheData = v →
        instrType w3 = H.instr B15_WRITE_CACHE →
      ∃ s3, handleInstruction H t2 w3 = .ok s3 ∧
        s3.cache = Function.update t2.cache (A % cacheLen) v ∧
      ∀ (t3 : State) (w4 : Nat), t3.cache = s3.cache →
        instrType w4 = H.instr B13_SET_CACHE_ADDR →
        bus H (foldLiteral t3 (instrData w4)) = .ok ((A + cacheLen) % 4294967296) →
      ∃ s4, handleInstruction H t3 w4 = .ok s4 ∧
      ∀ t4 : State, t4.cache = s4.cache → t4.cacheAddr = s4.cacheAddr →
        t4.busRegister = H.reg REG_CACHE_DATA → bus H t4 = .ok v) := by
  constructor
  · intro s0 w1 hw1 hb1
    refine ⟨_, handleInstruction_setDramAddr H hH s0 w1 A hw1 hb1, rfl, ?_⟩
    intro t1 w2 hA1 hw2 hb2
    refine ⟨_, handleInstruction_setDramData H hH t1 w2 v hw2 hb2, hA1, rfl, ?_⟩
    intro t2 w3 hA2 hv2 hw3
    refine ⟨_, handleInstruction_writeDram H hH t2 w3 hw3, by rw [← hA2, ← hv2], ?_⟩
    intro t3 w4 hd3 hw4 hb4
    refine ⟨_, handleInstruction_setDramAddr H hH t3 w4 _ hw4 hb4, ?_⟩
    intro t4 hd4 ha4 hsel
    have hd3' : t3.dram = Function.update t2.dram (t2.dramAddr % dramLen) t2.dramData := hd3
    rw [hA2, hv2] at hd3'
    have hd4' : t4.dram = t3.dram := hd4
    have ha4' : t4.dramAddr = (A + dramLen) % 4294967296 := ha4
    rw [bus_of_selector H hH.2.2.1 t4 _ hsel]
    simp only [hd4', ha4', hd3', hA2, hv2, dram_index_alias, Function.update_same]
  · intro s0 w1 hw1 hb1
    refine ⟨_, handleInstruction_setCacheAddr H hH s0 w1 A hw1 hb1, rfl, ?_⟩
    intro t1 w2 hA1 hw2 hb2
    refine ⟨_, handleInstruction_setCacheData H hH t1 w2 v hw2 hb2, hA1, rfl, ?_⟩
    intro t2 w3 hA2 hv2 hw3
    refine ⟨_, handleInstruction_writeCache H hH t2 w3 hw3, by rw [← hA2, ← hv2], ?_⟩
    intro t3 w4 hc3 hw4 hb4
    refine ⟨_, handleInstruction_setCacheAddr H hH t3 w4 _ hw4 hb4, ?_⟩
    intro t4 hc4 ha4 hsel
    have hc3' : t3.cache = Function.update t2.cache (t2.cacheAddr % cacheLen) t2.cacheData :=
      hc3
    rw [hA2, hv2] at hc3'
    have hc4' : t4.cache = t3.cache := hc4
    have ha4' : t4.cacheAddr = (A + cacheLen) % 4294967296 := ha4
    rw [bus_of_selector H hH.2.2.1 t4 _ hsel]
    simp only [hc4', ha4', hc3', hA2, hv2, cache_index_alias, Function.update_same]

/-- C5 at the sample headers, for DRAM with `A = 10` and `v = 42`: the literal
is selected, so the bus carries each instruction's immediate, on top of a high
half of `0x0200` when the address `10 + dramLen` is latched. -/
theorem C5_bank_alias_witness :
    ∃ s1 s2 s3 s4,
      handleInstruction sampleHeaders (init sampleHeaders fun _ => 0) (word 7 10) = .ok s1
      ∧ handleInstruction sampleHeaders s1 (word 0 42) = .ok s2
      ∧ handleInstruction sampleHeaders s2 (word 11 0) = .ok s3
      ∧ s3.dram 10 = 42
      ∧ handleInstruction sampleHeaders { s3 with dataLiteral := 0x02000000 } (word 7 10)
          = .ok s4
      ∧ s4.dramAddr = 10 + dramLen
      ∧ bus sampleHeaders { s4 with busRegister := sampleHeaders.reg REG_DRAM_DATA } = .ok 42 := by
  obtain ⟨s1, h1, ha1, step2⟩ := (C5_bank_alias sampleHeaders sampleHeaders_wellFormed 10 42).1
    (init sampleHeaders fun _ => 0) (word 7 10) rfl rfl
  have e1 : s1 = { foldLiteral (init sampleHeaders fun _ => 0) 10 with dramAddr := 10 } :=
    Except.ok.inj (h1.symm.trans rfl)
  obtain ⟨s2, h2, ha2, hv2, step3⟩ := step2 s1 (word 0 42) ha1 rfl (by subst e1; rfl)
  have e2 : s2 = { foldLiteral s1 42 with dramData := 42 } := by
    subst e1
    exact Except.ok.inj (h2.symm.trans rfl)
  obtain ⟨s3, h3, hd3, step4⟩ := step3 s2 (word 11 0) ha2 hv2 rfl
  have e3 : s3 = { foldLiteral s2 0 with dram := Function.update s2.dram 10 42 } := by
    subst e2 e1
    exact Except.ok.inj (h3.symm.trans rfl)
  obtain ⟨s4, h4, step5⟩ := step4 { s3 with dataLiteral := 0x02000000 } (word 7 10) rfl rfl
    (by subst e3 e2 e1; rfl)
  have e4 : s4 = { foldLiteral { s3 with dataLiteral := 0x02000000 } 10 with
      dramAddr := 10 + dramLen } := by
    subst e3 e2 e1
    exact Except.ok.inj (h4.symm.trans rfl)
  refine ⟨s1, s2, s3, s4, h1, h2, h3, ?_, h4, ?_,
    step5 { s4 with busRegister := sampleHeaders.reg REG_DRAM_DATA } rfl rfl rfl⟩
  · rw [hd3]; rfl
  · subst e4; rfl

/-! ### C6: DRAM store and load, end to end -/

/-- While the literal stays below `2^16` the fold replaces it by the immediate. -/
theorem fold_small (l d : Nat) (hl : l < 65536) : (l &&& 0xFFFF0000) ||| d = d := by
  rw [and_ffff0000_of_lt l hl, Nat.zero_or]

/-- C6: from the initial state, the sequence set-DRAM-address `a`,
set-DRAM-data `v`, commit, set-DRAM-address `a`, select the DRAM-data bus
source runs without fault and leaves a state in which `bus()` returns `v`, for
all `a` and `v` below `65536` (in particular `a = 10`, `v = 42`). -/
theorem C6_dram_store_load (H : Headers) (hH : H.WellFormed) (program : Nat → Nat)
    (a v : Nat) (w1 w2 w3 w4 w5 : Nat)
    (h1 : instrType w1 = H.instr A7_SET_DRAM_ADDR) (d1 : instrData w1 = a)
    (h2 : instrType w2 = H.instr A0_SET_DRAM_DATA) (d2 : instrData w2 = v)
    (h3 : instrType w3 = H.instr A11_WRITE_DRAM)
    (h4 : instrType w4 = H.instr A7_SET_DRAM_ADDR) (d4 : instrData w4 = a)
    (h5 : instrType w5 = H.instr A12_SET_BUS) (d5 : instrData w5 = H.reg REG_DRAM_DATA) :
    ∃ s, runInstructions H (init H program) [w1, w2, w3, w4, w5] = .ok s
      ∧ bus H s = .ok v := by
  have ha : a < 65536 := d1 ▸ instrData_lt w1
  have hv : v < 65536 := d2 ▸ instrData_lt w2
  have h16 : H.reg REG_DRAM_DATA &&& 15 = H.reg REG_DRAM_DATA := by
    rw [and_15]
    exact Nat.mod_eq_of_lt (hH.2.2.2 _)
  have hlit : ∀ s : State, s.busRegister = H.reg REG_LITERAL → bus H s = .ok s.dataLiteral :=
    fun s h => bus_of_selector H hH.2.2.1 s REG_LITERAL h
  have hdd : ∀ s : State, s.busRegister = H.reg REG_DRAM_DATA →
      bus H s = .ok (s.dram (s.dramAddr % dramLen)) :=
    fun s h => bus_of_selector H hH.2.2.1 s REG_DRAM_DATA h
  have ha0 : a &&& 0xFFFF0000 = 0 := and_ffff0000_of_lt a ha
  have hv0 : v &&& 0xFFFF0000 = 0 := and_ffff0000_of_lt v hv
  have hd3 : instrData w3 &&& 0xFFFF0000 = 0 := and_ffff0000_of_lt _ (instrData_lt w3)
  simp only [runInstructions, handleInstruction_of_type H hH.1 _ _ _ h1,
    handleInstruction_of_type H hH.1 _ _ _ h2, handleInstruction_of_type H hH.1 _ _ _ h3,
    handleInstruction_of_type H hH.1 _ _ _ h4, handleInstruction_of_type H hH.1 _ _ _ h5,
    exec, bind, Except.bind, pure, Except.pure, foldLiteral, init, d1, d2, d4, d5, hlit, hdd,
    Nat.zero_and, Nat.zero_or, ha0, hv0, hd3, h16]
  refine ⟨_, rfl, ?_⟩
  rw [hdd _ rfl]
  simp only [Function.update_same]

/-- C6 at the sample headers, with `a = 10` and `v = 42`. -/
theorem C6_dram_store_load_witness :
    ∃ s, runInstructions sampleHeaders (init sampleHeaders fun _ => 0)
        [word 7 10, word 0 42, word 11 0, word 7 10, word 12 15] = .ok s
      ∧ bus sampleHeaders s = .ok 42 :=
  C6_dram_store_load sampleHeaders sampleHeaders_wellFormed (fun _ => 0) 10 42
    (word 7 10) (word 0 42) (word 11 0) (word 7 10) (word 12 15)
    rfl rfl rfl rfl rfl rfl rfl rfl rfl

/-! ### C7: the three-instruction loop -/

/-- Sixteen distinct selector values below 16 are all of `0..15`. -/
theorem reg_surjective (H : Headers) (hH : H.WellFormed) (n : Nat) (hn : n < 16) :
    ∃ r, H.reg r = n := by
  have hinj : Function.Injective (fun r => (⟨H.reg r, hH.2.2.2 r⟩ : Fin 16)) := by
    intro x y hxy
    exact hH.2.2.1 (Fin.mk.inj hxy)
  have hcard : Fintype.card bus_register = Fintype.card (Fin 16) := by
    rw [Fintype.card_fin]
    rfl
  have hbij := (Fintype.bijective_iff_injective_and_card _).2 ⟨hinj, hcard⟩
  obtain ⟨r, hr⟩ := hbij.2 ⟨n, hn⟩
  exact ⟨r, congrArg Fin.val hr⟩

/-- In a state whose operands, latches and addressed memory words are all
zero, `bus()` returns zero whatever defined selector is set. -/
theorem bus_zero (H : Headers) (hH : H.WellFormed) (s : State) (r : bus_register)
    (hsel : s.busRegister = H.reg r) (hl : s.dataLiteral = 0) (ha : s.a = 0) (hb : s.b = 0)
    (hc : s.carryIn = false) (hda : s.dramAddr = 0) (hd : s.dram 0 = 0)
    (hca : s.cacheAddr = 0) (hcd : s.cache 0 = 0) : bus H s = .ok 0 := by
  rw [bus_of_selector H hH.2.2.1 s r hsel]
  cases r <;> simp [hl, ha, hb, hc, hda, hd, hca, hcd]

theorem handleInstruction_setBus (H : Headers) (hH : H.WellFormed) (s : State) (w : Nat)
    (hw : instrType w = H.instr A12_SET_BUS) :
    handleInstruction H s w = .ok { foldLiteral s (instrData w) with
      busRegister := instrData w &&& 15 } := by
  simp only [handleInstruction_of_type H hH.1 _ _ _ hw, exec, pure, Except.pure]

theorem handleInstruction_setA (H : Headers) (hH : H.WellFormed) (s : State) (w v : Nat)
    (hw : instrType w = H.instr A9_SET_A)
    (hb : bus H (foldLiteral s (instrData w)) = .ok v) :
    handleInstruction H s w = .ok { foldLiteral s (instrData w) with a := v } := by
  simp only [handleInstruction_of_type H hH.1 _ _ _ hw, exec, hb, bind, Except.bind, pure,
    Except.pure]

theorem handleInstruction_jmp (H : Headers) (hH : H.WellFormed) (s : State) (w : Nat)
    (hw : instrType w = H.instr A5_JMP) :
    handleInstruction H s w = .ok { foldLiteral s (instrData w) with
      programCounter := instrData w } := by
  simp only [handleInstruction_of_type H hH.1 _ _ _ hw, exec, pure, Except.pure]

/-- One pass of the `while` loop keeps `loopInvariant`. -/
theorem loopBody_loopInvariant (H : Headers) (hH : H.WellFormed) (program : Nat → Nat)
    (h0 : instrType (program 0) = H.instr A12_SET_BUS) (d0 : instrData (program 0) = 5)
    (h1 : instrType (program 1) = H.instr A9_SET_A) (d1 : instrData (program 1) = 0)
    (h2 : instrType (program 2) = H.instr A5_JMP) (d2 : instrData (program 2) = 0)
    (e : Emulator) (hinv : loopInvariant program e.machine) :
    ∃ e1, loopBody H e = .ok e1 ∧ loopInvariant program e1.machine := by
  obtain ⟨hp, hpc, hl, ha, hb, hc, hda, hd, hca, hcd⟩ := hinv
  have hfe : ∃ m, fetchExecute H e.machine = .ok m ∧ loopInvariant program m := by
    rcases hpc with hpc | ⟨hpc, hsel⟩ | hpc
    · have hw : e.machine.program e.machine.programCounter = program 0 := by rw [hp, hpc]
      refine ⟨_, handleInstruction_setBus H hH _ _ (hw ▸ h0), ?_⟩
      refine ⟨hp, Or.inr (Or.inl ⟨?_, ?_⟩), ?_, ha, hb, hc, hda, hd, hca, hcd⟩
      · show (e.machine.programCounter + 1) % 65536 = 1
        rw [hpc]
      · show instrData (e.machine.program e.machine.programCounter) &&& 15 = 5
        rw [hw, d0]
        decide
      · show (e.machine.dataLiteral &&& 0xFFFF0000) |||
            instrData (e.machine.program e.machine.programCounter) < 65536
        rw [fold_small _ _ hl]
        exact instrData_lt _
    · have hw : e.machine.program e.machine.programCounter = program 1 := by rw [hp, hpc]
      obtain ⟨r, hr⟩ := reg_surjective H hH 5 (by decide)
      have hbus : bus H (foldLiteral
          { e.machine with programCounter := (e.machine.programCounter + 1) % 65536 }
          (instrData (e.machine.program e.machine.programCounter))) = .ok 0 :=
        bus_zero H hH _ r (hsel.trans hr.symm)
          (by
            show (e.machine.dataLiteral &&& 0xFFFF0000) |||
              instrData (e.machine.program e.machine.programCounter) = 0
            rw [fold_small _ _ hl, hw, d1])
          ha hb hc hda hd hca hcd
      refine ⟨_, handleInstruction_setA H hH _ _ 0 (hw ▸ h1) hbus, ?_⟩
      refine ⟨hp, Or.inr (Or.inr ?_), ?_, rfl, hb, hc, hda, hd, hca, hcd⟩
      · show (e.machine.programCounter + 1) % 65536 = 2
        rw [hpc]
      · show (e.machine.dataLiteral &&& 0xFFFF0000) |||
            instrData (e.machine.program e.machine.programCounter) < 65536
        rw [fold_small _ _ hl]
        exact instrData_lt _
    · have hw : e.machine.program e.machine.programCounter = program 2 := by rw [hp, hpc]
      refine ⟨_, handleInstruction_jmp H hH _ _ (hw ▸ h2), ?_⟩
      refine ⟨hp, Or.inl ?_, ?_, ha, hb, hc, hda, hd, hca, hcd⟩
      · show instrData (e.machine.program e.machine.programCounter) = 0
        rw [hw, d2]
      · show (e.machine.dataLiteral &&& 0xFFFF0000) |||
            instrData (e.machine.program e.machine.programCounter) < 65536
        rw [fold_small _ _ hl]
        exact instrData_lt _
  obtain ⟨m, hm, hminv⟩ := hfe
  by_cases hcnt : e.display_counter = instructions_per_display_update
  · exact ⟨{ machine := { m with trace := m.trace ++ [Event.display_update] },
             display_counter := 0 }, by simp only [loopBody, hm, hcnt, if_true], hminv⟩
  · exact ⟨{ machine := m, display_counter := e.display_counter + 1 },
      by simp only [loopBody, hm, hcnt, if_false], hminv⟩

/-- Any number of passes of the `while` loop keeps `loopInvariant`. -/
theorem mainLoop_loopInvariant (H : Headers) (hH : H.WellFormed) (program : Nat → Nat)
    (h0 : instrType (program 0) = H.instr A12_SET_BUS) (d0 : instrData (program 0) = 5)
    (h1 : instrType (program 1) = H.instr A9_SET_A) (d1 : instrData (program 1) = 0)
    (h2 : instrType (program 2) = H.instr A5_JMP) (d2 : instrData (program 2) = 0)
    (n : Nat) (e : Emulator) (hinv : loopInvariant program e.machine) :
    ∃ e1, mainLoop H n e = .ok e1 ∧ loopInvariant program e1.machine := by
  induction n generalizing e with
  | zero => exact ⟨e, rfl, hinv⟩
  | succ n ih =>
    obtain ⟨e1, he1, hinv1⟩ := loopBody_loopInvariant H hH program h0 d0 h1 d1 h2 d2 e hinv
    obtain ⟨e2, he2, hinv2⟩ := ih e1 hinv1
    exact ⟨e2, by simp only [mainLoop, he1, he2], hinv2⟩

/-- C7, as stated, fails: at the sample headers, where selector 5 is the
literal, one iteration of the three-instruction loop from the initial state
ends with `a = 0`, not 5. -/
theorem C7_counterexample :
    (mainLoop sampleHeaders 3 (start sampleHeaders loopProgram)).map
        (fun e => e.machine.a) = .ok 0
    ∧ instrType (loopProgram 0) = sampleHeaders.instr A12_SET_BUS
    ∧ instrData (loopProgram 0) = 5
    ∧ sampleHeaders.reg REG_LITERAL = 5
    ∧ instrType (loopProgram 1) = sampleHeaders.instr A9_SET_A
    ∧ instrData (loopProgram 1) = 0
    ∧ instrType (loopProgram 2) = sampleHeaders.instr A5_JMP
    ∧ instrData (loopProgram 2) = 0
    ∧ (0 : Nat) ≠ 5 :=
  ⟨rfl, rfl, rfl, rfl, rfl, rfl, rfl, rfl, by decide⟩

/-- A pass of the `while` loop whose fetch-execute step completes with a
machine satisfying `Q` completes with a machine satisfying `Q`, when `Q` does
not read the trace. -/
theorem loopBody_lift (H : Headers) (Q : State → Prop)
    (hQ : ∀ s tr, Q s → Q { s with trace := tr }) (e : Emulator)
    (h : ∃ m, fetchExecute H e.machine = .ok m ∧ Q m) :
    ∃ e1, loopBody H e = .ok e1 ∧ Q e1.machine := by
  obtain ⟨m, hm, hQm⟩ := h
  by_cases hcnt : e.display_counter = instructions_per_display_update
  · exact ⟨{ machine := { m with trace := m.trace ++ [Event.display_update] },
             display_counter := 0 }, by simp only [loopBody, hm, hcnt, if_true], hQ m _ hQm⟩
  · exact ⟨{ machine := m, display_counter := e.display_counter + 1 },
      by simp only [loopBody, hm, hcnt, if_false], hQm⟩

/-- First instruction of the loop: `A12_SET_BUS` with immediate 5 sets the
selector to 5 and keeps the high half of the literal. -/
theorem loopStage_setBus (H : Headers) (hH : H.WellFormed) (program : Nat → Nat) (hi : Nat)
    (h0 : instrType (program 0) = H.instr A12_SET_BUS) (d0 : instrData (program 0) = 5)
    (s : State) (hs : loopStage program hi 0 s) :
    ∃ m, fetchExecute H s = .ok m ∧ loopStage program hi 1 m ∧ m.busRegister = 5 := by
  obtain ⟨hp, hpc, hhi⟩ := hs
  have hw : s.program s.programCounter = program 0 := by rw [hp, hpc]
  refine ⟨_, handleInstruction_setBus H hH _ _ (hw ▸ h0), ⟨hp, ?_, ?_⟩, ?_⟩
  · show (s.programCounter + 1) % 65536 = 1
    rw [hpc]
  · show ((s.dataLiteral &&& 0xFFFF0000) ||| instrData (s.program s.programCounter))
      &&& 0xFFFF0000 = hi
    rw [fold_high _ _ (instrData_lt _), hhi]
  · show instrData (s.program s.programCounter) &&& 15 = 5
    rw [hw, d0]
    decide

/-- Second instruction of the loop, with selector 5 naming the literal:
`A9_SET_A` with immediate `d` loads `a` with the literal as folded by this very
instruction, its high half with `d` below. -/
theorem loopStage_setA (H : Headers) (hH : H.WellFormed) (hlit : H.reg REG_LITERAL = 5)
    (program : Nat → Nat) (hi d : Nat)
    (h1 : instrType (program 1) = H.instr A9_SET_A) (d1 : instrData (program 1) = d)
    (s : State) (hs : loopStage program hi 1 s) (hsel : s.busRegister = 5) :
    ∃ m, fetchExecute H s = .ok m ∧ loopStage program hi 2 m ∧ m.busRegister = 5
      ∧ m.a = hi ||| d := by
  obtain ⟨hp, hpc, hhi⟩ := hs
  have hw : s.program s.programCounter = program 1 := by rw [hp, hpc]
  have hbus : bus H (foldLiteral
      { s with programCounter := (s.programCounter + 1) % 65536 }
      (instrData (s.program s.programCounter)))
      = .ok ((s.dataLiteral &&& 0xFFFF0000) ||| instrData (s.program s.programCounter)) :=
    bus_of_selector H hH.2.2.1
      (foldLiteral { s with programCounter := (s.programCounter + 1) % 65536 }
        (instrData (s.program s.programCounter))) REG_LITERAL (hsel.trans hlit.symm)
  refine ⟨_, handleInstruction_setA H hH _ _ _ (hw ▸ h1) hbus, ⟨hp, ?_, ?_⟩, hsel, ?_⟩
  · show (s.programCounter + 1) % 65536 = 2
    rw [hpc]
  · show ((s.dataLiteral &&& 0xFFFF0000) ||| instrData (s.program s.programCounter))
      &&& 0xFFFF0000 = hi
    rw [fold_high _ _ (instrData_lt _), hhi]
  · show (s.dataLiteral &&& 0xFFFF0000) ||| instrData (s.program s.programCounter) = hi ||| d
    rw [hw, d1, hhi]

/-- Third instruction of the loop: `A5_JMP` with immediate 0 goes back to 0 and
keeps the selector and `a`. -/
theorem loopStage_jmp (H : Headers) (hH : H.WellFormed) (program : Nat → Nat) (hi : Nat)
    (h2 : instrType (program 2) = H.instr A5_JMP) (d2 : instrData (program 2) = 0)
    (s : State) (hs : loopStage program hi 2 s) :
    ∃ m, fetchExecute H s = .ok m ∧ loopStage program hi 0 m
      ∧ m.busRegister = s.busRegister ∧ m.a = s.a := by
  obtain ⟨hp, hpc, hhi⟩ := hs
  have hw : s.program s.programCounter = program 2 := by rw [hp, hpc]
  refine ⟨_, handleInstruction_jmp H hH _ _ (hw ▸ h2), ⟨hp, ?_, ?_⟩, rfl, rfl⟩
  · show instrData (s.program s.programCounter) = 0
    rw [hw, d2]
  · show ((s.dataLiteral &&& 0xFFFF0000) ||| instrData (s.program s.programCounter))
      &&& 0xFFFF0000 = hi
    rw [fold_high _ _ (instrData_lt _), hhi]

/-- One iteration of the loop, selector 5 naming the literal, from any machine
at address 0 whatever `a` holds: three passes later the machine is at address 0
again and `a` is the high half of the literal with `d` below. -/
theorem loop_iteration (H : Headers) (hH : H.WellFormed) (hlit : H.reg REG_LITERAL = 5)
    (program : Nat → Nat) (hi d : Nat)
    (h0 : instrType (program 0) = H.instr A12_SET_BUS) (d0 : instrData (program 0) = 5)
    (h1 : instrType (program 1) = H.instr A9_SET_A) (d1 : instrData (program 1) = d)
    (h2 : instrType (program 2) = H.instr A5_JMP) (d2 : instrData (program 2) = 0)
    (e : Emulator) (hs : loopStage program hi 0 e.machine) :
    ∃ e3, mainLoop H 3 e = .ok e3 ∧ loopStage program hi 0 e3.machine
      ∧ e3.machine.a = hi ||| d := by
  obtain ⟨e1, he1, hs1, hb1⟩ := loopBody_lift H
    (fun m => loopStage program hi 1 m ∧ m.busRegister = 5) (fun _ _ h => h) e
    (loopStage_setBus H hH program hi h0 d0 e.machine hs)
  obtain ⟨e2, he2, hs2, hb2, ha2⟩ := loopBody_lift H
    (fun m => loopStage program hi 2 m ∧ m.busRegister = 5 ∧ m.a = hi ||| d)
    (fun _ _ h => h) e1
    (loopStage_setA H hH hlit program hi d h1 d1 e1.machine hs1 hb1)
  obtain ⟨e3, he3, hs3, _, ha3⟩ := loopBody_lift H
    (fun m => loopStage program hi 0 m ∧ m.busRegister = e2.machine.busRegister
      ∧ m.a = e2.machine.a)
    (fun _ _ h => h) e2
    (loopStage_jmp H hH program hi h2 d2 e2.machine hs2)
  exact ⟨e3, by simp only [mainLoop, he1, he2, he3], hs3, ha3.trans ha2⟩

/-- Any positive number of iterations of the loop, as `loop_iteration`. -/
theorem loop_iterations (H : Headers) (hH : H.WellFormed) (hlit : H.reg REG_LITERAL = 5)
    (program : Nat → Nat) (hi d : Nat)
    (h0 : instrType (program 0) = H.instr A12_SET_BUS) (d0 : instrData (program 0) = 5)
    (h1 : instrType (program 1) = H.instr A9_SET_A) (d1 : instrData (program 1) = d)
    (h2 : instrType (program 2) = H.instr A5_JMP) (d2 : instrData (program 2) = 0)
    (N : Nat) (e : Emulator) (hs : loopStage program hi 0 e.machine) :
    ∃ e1, mainLoop H (3 * (N + 1)) e = .ok e1 ∧ loopStage program hi 0 e1.machine
      ∧ e1.machine.a = hi ||| d := by
  induction N generalizing e with
  | zero => exact loop_iteration H hH hlit program hi d h0 d0 h1 d1 h2 d2 e hs
  | succ N ih =>
    obtain ⟨e3, he3, hs3, _⟩ := loop_iteration H hH hlit program hi d h0 d0 h1 d1 h2 d2 e hs
    obtain ⟨e1, he1, hs1, ha1⟩ := ih e3 hs3
    refine ⟨e1, ?_, hs1, ha1⟩
    have hn : 3 * (N + 1 + 1) = 3 * (N + 1) + 1 + 1 + 1 := by omega
    rw [hn]
    simp only [mainLoop] at he3 ⊢
    cases hb1 : loopBody H e with
    | error f => rw [hb1] at he3; exact Except.noConfusion he3
    | ok a1 =>
      rw [hb1] at he3
      dsimp only at he3 ⊢
      cases hb2 : loopBody H a1 with
      | error f => rw [hb2] at he3; exact Except.noConfusion he3
      | ok a2 =>
        rw [hb2] at he3
        dsimp only at he3 ⊢
        cases hb3 : loopBody H a2 with
        | error f => rw [hb3] at he3; exact Except.noConfusion he3
        | ok a3 =>
          rw [hb3] at he3
          dsimp only at he3 ⊢
          rw [Except.ok.inj he3]
          exact he1

/-- C7 (amended): with `A12_SET_BUS` immediate 5, `A9_SET_A` immediate `d` and
`A5_JMP` immediate 0 at addresses 0, 1, 2.  For `d = 0`, the program of the
claim, the loop started in the initial state never faults and register `a` is
0, not 5, after any number of executed instructions, whatever source selector
5 names.  When selector 5 is the literal, every iteration reloads `a` from the
bus as `A9_SET_A` finds it after folding its own immediate: from any machine at
address 0, whatever `a` holds, after `N ≥ 1` iterations `a` is the high half of
the literal with `d` below, and from the initial state it is `d`. -/
theorem C7_loop (H : Headers) (hH : H.WellFormed) (program : Nat → Nat) (d : Nat)
    (h0 : instrType (program 0) = H.instr A12_SET_BUS) (d0 : instrData (program 0) = 5)
    (h1 : instrType (program 1) = H.instr A9_SET_A) (d1 : instrData (program 1) = d)
    (h2 : instrType (program 2) = H.instr A5_JMP) (d2 : instrData (program 2) = 0) :
    (d = 0 →
      (∀ n, ∃ e, mainLoop H n (start H program) = .ok e ∧ e.machine.a = 0)
      ∧ ∀ N, 1 ≤ N → ∃ e, mainLoop H (3 * N) (start H program) = .ok e ∧ e.machine.a = 0)
    ∧ (H.reg REG_LITERAL = 5 →
      (∀ e : Emulator, e.machine.program = program → e.machine.programCounter = 0 →
        ∀ N, 1 ≤ N → ∃ e1, mainLoop H (3 * N) e = .ok e1
          ∧ e1.machine.a = (e.machine.dataLiteral &&& 0xFFFF0000) ||| d
          ∧ e1.machine.programCounter = 0)
      ∧ ∀ N, 1 ≤ N → ∃ e1, mainLoop H (3 * N) (start H program) = .ok e1
          ∧ e1.machine.a = d) := by
  constructor
  · intro hd
    subst hd
    have hstart : loopInvariant program (start H program).machine :=
      ⟨rfl, Or.inl rfl, show (0 : Nat) < 65536 by decide, rfl, rfl, rfl, rfl, rfl, rfl, rfl⟩
    have hall : ∀ n, ∃ e, mainLoop H n (start H program) = .ok e ∧ e.machine.a = 0 := by
      intro n
      obtain ⟨e, he, hinv⟩ :=
        mainLoop_loopInvariant H hH program h0 d0 h1 d1 h2 d2 n (start H program) hstart
      exact ⟨e, he, hinv.2.2.2.1⟩
    exact ⟨hall, fun N _ => hall (3 * N)⟩
  · intro hlit
    have hgen : ∀ e : Emulator, e.machine.program = program → e.machine.programCounter = 0 →
        ∀ N, 1 ≤ N → ∃ e1, mainLoop H (3 * N) e = .ok e1
          ∧ e1.machine.a = (e.machine.dataLiteral &&& 0xFFFF0000) ||| d
          ∧ e1.machine.programCounter = 0 := by
      intro e hp hpc N hN
      obtain ⟨M, hM⟩ : ∃ M, N = M + 1 := ⟨N - 1, by omega⟩
      subst hM
      obtain ⟨e1, he1, hs1, ha1⟩ := loop_iterations H hH hlit program
        (e.machine.dataLiteral &&& 0xFFFF0000) d h0 d0 h1 d1 h2 d2 M e ⟨hp, hpc, rfl⟩
      exact ⟨e1, he1, ha1, hs1.2.1⟩
    refine ⟨hgen, fun N hN => ?_⟩
    obtain ⟨e1, he1, ha1, _⟩ := hgen (start H program) rfl rfl N hN
    refine ⟨e1, he1, ?_⟩
    rw [ha1]
    exact fold_small 0 d (by decide)

/-- C7 (amended) at the sample headers, where selector 5 is the literal: one
iteration of `loopProgram` takes `a` from 77 to 0, and with `A9_SET_A` carrying
5 two iterations from the initial state leave `a = 5`. -/
theorem C7_loop_witness :
    (∃ e1, mainLoop sampleHeaders 3
        { machine := { init sampleHeaders loopProgram with a := 77 }, display_counter := 0 }
          = .ok e1 ∧ e1.machine.a = 0)
    ∧ (∃ e1, mainLoop sampleHeaders 6 (start sampleHeaders (loopProgramWith 5)) = .ok e1
        ∧ e1.machine.a = 5) := by
  obtain ⟨e1, he1, ha1, _⟩ :=
    ((C7_loop sampleHeaders sampleHeaders_wellFormed loopProgram 0
      rfl rfl rfl rfl rfl rfl).2 rfl).1
      { machine := { init sampleHeaders loopProgram with a := 77 }, display_counter := 0 }
      rfl rfl 1 (by decide)
  obtain ⟨e2, he2, ha2⟩ :=
    ((C7_loop sampleHeaders sampleHeaders_wellFormed (loopProgramWith 5) 5
      rfl rfl rfl rfl rfl rfl).2 rfl).2 2 (by decide)
  exact ⟨⟨e1, he1, ha1⟩, ⟨e2, he2, ha2⟩⟩

/-! ### C8: the carry-added sum -/

/-- C8: with the selector `REG_A_PLUS_B`, `bus()` returns
`(A + B + (c ? 1 : 0)) mod 2^32`, and the same value when the contents of `a`
and `b` are swapped. -/
theorem C8_a_plus_b (H : Headers) (hH : H.WellFormed) (s : State) (A B : Nat) (c : Bool)
    (hsel : s.busRegister = H.reg REG_A_PLUS_B) (ha : s.a = A) (hb : s.b = B)
    (hc : s.carryIn = c) :
    bus H s = .ok ((A + B + (if c then 1 else 0)) % 2 ^ 32)
    ∧ bus H { s with a := B, b := A } = bus H s := by
  subst ha hb hc
  have h1 : bus H s = .ok (((if s.carryIn then 1 else 0) + s.a + s.b) % 4294967296) :=
    bus_of_selector H hH.2.2.1 s REG_A_PLUS_B hsel
  have h2 : bus H { s with a := s.b, b := s.a }
      = .ok (((if s.carryIn then 1 else 0) + s.b + s.a) % 4294967296) :=
    bus_of_selector H hH.2.2.1 { s with a := s.b, b := s.a } REG_A_PLUS_B hsel
  have hpow : (2 : Nat) ^ 32 = 4294967296 := by norm_num
  rw [h2, h1, hpow]
  constructor
  · congr 2
    omega
  · congr 2
    omega

/-- C8 at the sample headers: `a = 0xFFFFFFFF`, `b = 1`, no carry gives 0. -/
theorem C8_a_plus_b_witness :
    bus sampleHeaders { init sampleHeaders (fun _ => 0) with
        busRegister := sampleHeaders.reg REG_A_PLUS_B, a := 0xFFFFFFFF, b := 1 } = .ok 0 :=
  (C8_a_plus_b sampleHeaders sampleHeaders_wellFormed _ 0xFFFFFFFF 1 false rfl rfl rfl rfl).1

/-! ### C9: jumps -/

/-- The conditional and unconditional jumps, with the predicate read in the
state the handler runs in, the one after the fold of line 80. -/
theorem handleInstruction_jump (H : Headers) (hH : H.WellFormed) (s : State) (w : Nat) :
    (instrType w = H.instr A3_JLEQ → handleInstruction H s w = .ok
      (if H.lessOrEqualThan (foldLiteral s (instrData w))
        then { foldLiteral s (instrData w) with programCounter := instrData w }
        else foldLiteral s (instrData w)))
    ∧ (instrType w = H.instr A4_JGEQ → handleInstruction H s w = .ok
      (if H.greaterOrEqualThan (foldLiteral s (instrData w))
        then { foldLiteral s (instrData w) with programCounter := instrData w }
        else foldLiteral s (instrData w)))
    ∧ (instrType w = H.instr A8_JNE → handleInstruction H s w = .ok
      (if H.notEqualThan (foldLiteral s (instrData w))
        then { foldLiteral s (instrData w) with programCounter := instrData w }
        else foldLiteral s (instrData w)))
    ∧ (instrType w = H.instr B8_JL → handleInstruction H s w = .ok
      (if H.lessThan (foldLiteral s (instrData w))
        then { foldLiteral s (instrData w) with programCounter := instrData w }
        else foldLiteral s (instrData w)))
    ∧ (instrType w = H.instr B10_JG → handleInstruction H s w = .ok
      (if H.greaterThan (foldLiteral s (instrData w))
        then { foldLiteral s (instrData w) with programCounter := instrData w }
        else foldLiteral s (instrData w)))
    ∧ (instrType w = H.instr B11_JE → handleInstruction H s w = .ok
      (if H.equalThan (foldLiteral s (instrData w))
        then { foldLiteral s (instrData w) with programCounter := instrData w }
        else foldLiteral s (instrData w))) := by
  refine ⟨?_, ?_, ?_, ?_, ?_, ?_⟩ <;> intro hw <;>
    simp only [handleInstruction_of_type H hH.1 _ _ _ hw, exec, pure, Except.pure]

/-- The program counter after a conditional step. -/
theorem programCounter_ite (c : Bool) (s : State) (d : Nat) :
    (if c then { s with programCounter := d } else s).programCounter
      = if c then d else s.programCounter := by
  cases c <;> rfl

/-- C9: each of the six conditional jumps sets the program counter to the
immediate `d` when its comparison function holds in the state and leaves it
unchanged otherwise; `A5_JMP` always sets it to `d`.  The comparison functions
are those of `comparisons.h`, which do not read the literal. -/
theorem C9_jumps (H : Headers) (hH : H.WellFormed) (hcmp : H.ComparisonsIgnoreLiteral)
    (s : State) (w d : Nat) (hd : instrData w = d) :
    (instrType w = H.instr A3_JLEQ → ∃ s1, handleInstruction H s w = .ok s1 ∧
      s1.programCounter = if H.lessOrEqualThan s then d else s.programCounter)
    ∧ (instrType w = H.instr A4_JGEQ → ∃ s1, handleInstruction H s w = .ok s1 ∧
      s1.programCounter = if H.greaterOrEqualThan s then d else s.programCounter)
    ∧ (instrType w = H.instr A8_JNE → ∃ s1, handleInstruction H s w = .ok s1 ∧
      s1.programCounter = if H.notEqualThan s then d else s.programCounter)
    ∧ (instrType w = H.instr B8_JL → ∃ s1, handleInstruction H s w = .ok s1 ∧
      s1.programCounter = if H.lessThan s then d else s.programCounter)
    ∧ (instrType w = H.instr B10_JG → ∃ s1, handleInstruction H s w = .ok s1 ∧
      s1.programCounter = if H.greaterThan s then d else s.programCounter)
    ∧ (instrType w = H.instr B11_JE → ∃ s1, handleInstruction H s w = .ok s1 ∧
      s1.programCounter = if H.equalThan s then d else s.programCounter)
    ∧ (instrType w = H.instr A5_JMP → ∃ s1, handleInstruction H s w = .ok s1 ∧
      s1.programCounter = d) := by
  subst hd
  obtain ⟨j1, j2, j3, j4, j5, j6⟩ := handleInstruction_jump H hH s w
  obtain ⟨c1, c2, c3, c4, c5, c6⟩ :=
    hcmp s ((s.dataLiteral &&& 0xFFFF0000) ||| instrData w)
  refine ⟨fun hw => ⟨_, j1 hw, ?_⟩, fun hw => ⟨_, j2 hw, ?_⟩, fun hw => ⟨_, j3 hw, ?_⟩,
    fun hw => ⟨_, j4 hw, ?_⟩, fun hw => ⟨_, j5 hw, ?_⟩, fun hw => ⟨_, j6 hw, ?_⟩,
    fun hw => ⟨_, handleInstruction_jmp H hH s w hw, rfl⟩⟩
  · rw [programCounter_ite]; simp only [foldLiteral, c2]
  · rw [programCounter_ite]; simp only [foldLiteral, c4]
  · rw [programCounter_ite]; simp only [foldLiteral, c6]
  · rw [programCounter_ite]; simp only [foldLiteral, c1]
  · rw [programCounter_ite]; simp only [foldLiteral, c3]
  · rw [programCounter_ite]; simp only [foldLiteral, c5]

theorem sampleHeaders_comparisons : sampleHeaders.ComparisonsIgnoreLiteral :=
  fun _ _ => ⟨rfl, rfl, rfl, rfl, rfl, rfl⟩

/-- C9 at the sample headers: `B11_JE` to 100 with the equal flag set jumps;
`B8_JL` to 100 with the less flag clear falls through. -/
theorem C9_jumps_witness :
    (∃ s1, handleInstruction sampleHeaders
        { init sampleHeaders (fun _ => 0) with aluFlags := 1, programCounter := 7 }
        (word 27 100) = .ok s1 ∧ s1.programCounter = 100)
    ∧ (∃ s1, handleInstruction sampleHeaders
        { init sampleHeaders (fun _ => 0) with aluFlags := 1, programCounter := 7 }
        (word 24 100) = .ok s1 ∧ s1.programCounter = 7) :=
  ⟨(C9_jumps sampleHeaders sampleHeaders_wellFormed sampleHeaders_comparisons
      { init sampleHeaders (fun _ => 0) with aluFlags := 1, programCounter := 7 }
      (word 27 100) 100 rfl).2.2.2.2.2.1 rfl,
   (C9_jumps sampleHeaders sampleHeaders_wellFormed sampleHeaders_comparisons
      { init sampleHeaders (fun _ => 0) with aluFlags := 1, programCounter := 7 }
      (word 24 100) 100 rfl).2.2.2.1 rfl⟩

/-! ### C10: unknown opcode types -/

/-- No handler ends in the `UNKNOWN TYPE` exit. -/
theorem exec_ne_unknownType (H : Headers) (op : instruction_type) (s : State) (d x : Nat) :
    exec H op s d ≠ .error (.unknownType x) := by
  intro h
  have hbus : ∀ f, bus H s = .error f → f ≠ .unknownType x := by
    intro f hf hx
    have := (bus_error H s f hf).1
    rw [hx] at this
    exact Fault.noConfusion this
  cases op
  all_goals simp only [exec, bind, Except.bind, pure, Except.pure, bus_with_returnAddress] at h
  all_goals first
    | exact Except.noConfusion h
    | (cases hb : bus H s with
       | error f =>
         rw [hb] at h
         exact hbus f hb (Except.error.inj h)
       | ok v =>
         rw [hb] at h
         first
           | exact Except.noConfusion h
           | (dsimp only at h
              by_cases hv : v = 0
              · rw [if_pos hv] at h
                exact Fault.noConfusion (Except.error.inj h)
              · rw [if_neg hv] at h
                exact Except.noConfusion h))

/-- The opcode byte is bits 16..23 of the instruction word. -/
theorem instrType_eq (w : Nat) : instrType w = w / 65536 % 256 := by
  unfold instrType
  have h1 : (w &&& 0xFF0000) >>> 16 = (w >>> 16) &&& 0xFF := by
    have hM : (0xFF0000 : Nat) = 0xFF <<< 16 := by decide
    apply Nat.eq_of_testBit_eq
    intro i
    rw [hM]
    simp only [Nat.testBit_shiftRight, Nat.testBit_and, Nat.testBit_shiftLeft]
    simp
  have h2 : ∀ x : Nat, x &&& 0xFF = x % 256 := fun x => Nat.and_pow_two_sub_one_eq_mod x 8
  rw [h1, h2, Nat.mod_mod, Nat.shiftRight_eq_div_pow]

/-- C10: `handleInstruction` ends in the `UNKNOWN TYPE` exit exactly when the
opcode byte, bits 16..23 of the word, is the value of none of the 45 opcode
types with a handler, and the exit reports that byte; a program whose first
word has such a byte stops the loop on its first instruction. -/
theorem C10_unknown_type (H : Headers) (s : State) (w : Nat) :
    (handleInstruction H s w = .error (.unknownType (instrType w))
      ↔ ∀ op, instrType w ≠ H.instr op)
    ∧ (∀ x, handleInstruction H s w = .error (.unknownType x) → x = instrType w)
    ∧ instrType w = w / 65536 % 256
    ∧ Fintype.card instruction_type = 45
    ∧ ∀ (program : Nat → Nat), (∀ op, instrType (program 0) ≠ H.instr op) →
        ∀ n, mainLoop H (n + 1) (start H program)
          = .error (.unknownType (instrType (program 0))) := by
  have hnone : (∀ op, instrType w ≠ H.instr op) →
      handleInstruction H s w = .error (.unknownType (instrType w)) := by
    intro h
    rw [handleInstruction_eq, (decode_eq_none_iff H _).2 h]
    rfl
  have hsome : ∀ x, handleInstruction H s w = .error (.unknownType x) →
      (∀ op, instrType w ≠ H.instr op) := by
    intro x h
    rw [handleInstruction_eq] at h
    cases hd : decode H (instrType w) with
    | none => exact (decode_eq_none_iff H _).1 hd
    | some op =>
      rw [hd] at h
      exact absurd h (exec_ne_unknownType H op _ _ x)
  refine ⟨⟨hsome _, hnone⟩, ?_, instrType_eq w, rfl, ?_⟩
  · intro x h
    have h2 := hnone (hsome x h)
    rw [h] at h2
    exact Fault.unknownType.inj (Except.error.inj h2)
  · intro program h n
    have hfe : fetchExecute H (start H program).machine
        = .error (.unknownType (instrType (program 0))) := by
      unfold fetchExecute
      rw [handleInstruction_eq]
      have hd : decode H (instrType ((start H program).machine.program
          (start H program).machine.programCounter)) = none :=
        (decode_eq_none_iff H _).2 h
      rw [hd]
      rfl
    simp only [mainLoop, loopBody, hfe]

/-- C10 at the sample headers: the one-word program `0xFF0007` stops the loop
at once, reporting opcode byte 255. -/
theorem C10_unknown_type_witness :
    mainLoop sampleHeaders 1 (start sampleHeaders fun _ => word 255 7)
      = .error (.unknownType 255) :=
  (C10_unknown_type sampleHeaders (init sampleHeaders fun _ => 0) 0).2.2.2.2
    (fun _ => word 255 7) (fun op => by cases op <;> decide) 0

/-! ### What the handlers leave alone -/

/-- No handler writes program memory. -/
theorem exec_program (H : Headers) (op : instruction_type) (s s1 : State) (d : Nat)
    (h : exec H op s d = .ok s1) : s1.program = s.program := by
  cases op
  all_goals first
    | (simp only [exec, pure, Except.pure, Except.ok.injEq] at h
       subst h
       first | rfl | (split <;> rfl))
    | (simp only [exec, bind, Except.bind, pure, Except.pure, bus_with_returnAddress] at h
       cases hb : bus H s with
       | error f => rw [hb] at h; exact Except.noConfusion h
       | ok v =>
         rw [hb] at h
         first
           | (simp only [Except.ok.injEq] at h
              subst h
              rfl)
           | (dsimp only at h
              by_cases hv : v = 0
              · rw [if_pos hv] at h
                exact Except.noConfusion h
              · rw [if_neg hv, Except.ok.injEq] at h
                subst h
                rfl))

/-- Only the handler of `A12_SET_BUS` writes the selector, and it stores the
immediate masked to four bits. -/
theorem exec_busRegister (H : Headers) (op : instruction_type) (s s1 : State) (d : Nat)
    (h : exec H op s d = .ok s1) :
    s1.busRegister = if op = A12_SET_BUS then d &&& 15 else s.busRegister := by
  cases op
  all_goals first
    | (simp only [exec, pure, Except.pure, Except.ok.injEq] at h
       subst h
       first | rfl | (split <;> rfl))
    | (simp only [exec, bind, Except.bind, pure, Except.pure, bus_with_returnAddress] at h
       cases hb : bus H s with
       | error f => rw [hb] at h; exact Except.noConfusion h
       | ok v =>
         rw [hb] at h
         first
           | (simp only [Except.ok.injEq] at h
              subst h
              rfl)
           | (dsimp only at h
              by_cases hv : v = 0
              · rw [if_pos hv] at h
                exact Except.noConfusion h
              · rw [if_neg hv, Except.ok.injEq] at h
                subst h
                rfl))

/-- A completed `handleInstruction` ran the handler of the decoded opcode. -/
theorem handleInstruction_ok (H : Headers) (s s1 : State) (w : Nat)
    (h : handleInstruction H s w = .ok s1) :
    ∃ op, decode H (instrType w) = some op
      ∧ exec H op (foldLiteral s (instrData w)) (instrData w) = .ok s1 := by
  rw [handleInstruction_eq] at h
  cases hd : decode H (instrType w) with
  | none => rw [hd] at h; exact Except.noConfusion h
  | some op => rw [hd] at h; exact ⟨op, rfl, h⟩

theorem ite_some_eq_some {ι : Type} {c : Prop} [Decidable c] {a b : ι} {d : Option ι}
    (h : (if c then some a else d) = some b) : (c ∧ a = b) ∨ (¬ c ∧ d = some b) := by
  by_cases hc : c
  · rw [if_pos hc] at h
    exact Or.inl ⟨hc, Option.some.inj h⟩
  · rw [if_neg hc] at h
    exact Or.inr ⟨hc, h⟩

/-- The decoded opcode has the value of the opcode byte. -/
theorem decode_some (H : Headers) (t : Nat) (op : instruction_type)
    (h : decode H t = some op) : t = H.instr op := by
  unfold decode at h
  iterate 45
    rcases ite_some_eq_some h with ⟨hc, hop⟩ | ⟨_, h'⟩
    · rw [← hop]
      exact hc
    replace h := h'
    clear h'
  exact Option.noConfusion h

/-- The selector after a completed instruction: the immediate masked to four
bits for `A12_SET_BUS`, the selector before for every other opcode. -/
theorem handleInstruction_busRegister (H : Headers) (hH : H.WellFormed) (s s1 : State)
    (w : Nat) (h : handleInstruction H s w = .ok s1) :
    s1.busRegister =
      if instrType w = H.instr A12_SET_BUS then instrData w &&& 15 else s.busRegister := by
  obtain ⟨op, hd, he⟩ := handleInstruction_ok H s s1 w h
  have ht := decode_some H _ op hd
  rw [exec_busRegister H op _ s1 _ he, ht]
  by_cases hop : op = A12_SET_BUS
  · rw [if_pos hop, if_pos (congrArg H.instr hop)]
  · rw [if_neg hop, if_neg (fun hc => hop (hH.1 hc))]
    rfl

/-- A selector below 16 is the value of one of the sixteen enumerators. -/
theorem selector_defined (H : Headers) (hH : H.WellFormed) (s : State)
    (h : s.busRegister < 16) :
    (∃ r, s.busRegister = H.reg r) ∧ ∃ v, bus H s = .ok v := by
  obtain ⟨r, hr⟩ := reg_surjective H hH _ h
  exact ⟨⟨r, hr.symm⟩, bus_ok_of_selector H s r hr.symm⟩

theorem handleInstruction_selector_lt (H : Headers) (hH : H.WellFormed) (s s1 : State)
    (w : Nat) (hs : s.busRegister < 16) (h : handleInstruction H s w = .ok s1) :
    s1.busRegister < 16 := by
  rw [handleInstruction_busRegister H hH s s1 w h]
  by_cases hc : instrType w = H.instr A12_SET_BUS
  · rw [if_pos hc, and_15]
    exact Nat.mod_lt _ (by decide)
  · rw [if_neg hc]
    exact hs

theorem runInstructions_selector_lt (H : Headers) (hH : H.WellFormed) (ws : List Nat)
    (s s1 : State) (hs : s.busRegister < 16) (h : runInstructions H s ws = .ok s1) :
    s1.busRegister < 16 := by
  induction ws generalizing s with
  | nil =>
    simp only [runInstructions, Except.ok.injEq] at h
    exact h ▸ hs
  | cons w ws ih =>
    simp only [runInstructions] at h
    cases hw : handleInstruction H s w with
    | error f => rw [hw] at h; exact Except.noConfusion h
    | ok t =>
      rw [hw] at h
      exact ih t (handleInstruction_selector_lt H hH s t w hs hw) h

/-- What one pass of the `while` loop does: it fetches and executes, then
either presents the display and clears the counter or counts one up. -/
theorem loopBody_ok (H : Headers) (e e1 : Emulator) (h : loopBody H e = .ok e1) :
    ∃ m, fetchExecute H e.machine = .ok m ∧
      ((e.display_counter = instructions_per_display_update
          ∧ e1 = { machine := { m with trace := m.trace ++ [Event.display_update] },
                   display_counter := 0 })
        ∨ (e.display_counter ≠ instructions_per_display_update
          ∧ e1 = { machine := m, display_counter := e.display_counter + 1 })) := by
  unfold loopBody at h
  cases hm : fetchExecute H e.machine with
  | error f => rw [hm] at h; exact Except.noConfusion h
  | ok m =>
    rw [hm] at h
    dsimp only at h
    by_cases hc : e.display_counter = instructions_per_display_update
    · rw [if_pos hc] at h
      exact ⟨m, rfl, Or.inl ⟨hc, (Except.ok.inj h).symm⟩⟩
    · rw [if_neg hc] at h
      exact ⟨m, rfl, Or.inr ⟨hc, (Except.ok.inj h).symm⟩⟩

theorem mainLoop_selector_lt (H : Headers) (hH : H.WellFormed) (n : Nat) (e e1 : Emulator)
    (hs : e.machine.busRegister < 16) (h : mainLoop H n e = .ok e1) :
    e1.machine.busRegister < 16 := by
  induction n generalizing e with
  | zero =>
    simp only [mainLoop, Except.ok.injEq] at h
    exact h ▸ hs
  | succ n ih =>
    simp only [mainLoop] at h
    cases hb : loopBody H e with
    | error f => rw [hb] at h; exact Except.noConfusion h
    | ok e2 =>
      rw [hb] at h
      obtain ⟨m, hm, hcase⟩ := loopBody_ok H e e2 hb
      have hm16 : m.busRegister < 16 :=
        handleInstruction_selector_lt H hH
          { e.machine with programCounter := (e.machine.programCounter + 1) % 65536 } m
          (e.machine.program e.machine.programCounter) hs hm
      refine ih e2 ?_ h
      rcases hcase with ⟨_, he2⟩ | ⟨_, he2⟩ <;> rw [he2] <;> exact hm16

/-! ### C11: the selector is always defined -/

/-- C11: `A12_SET_BUS` stores `immediate & 15` in the selector and no other
opcode changes it, so in every state reached from the initial state, by any
sequence of instructions or by any number of passes of the fetch-execute loop,
the selector is below 16, is the value of one of the sixteen enumerators, and
`bus()` returns through one of its `case`s. -/
theorem C11_selector_defined (H : Headers) (hH : H.WellFormed) (program : Nat → Nat) :
    (∀ (s s1 : State) (w : Nat), handleInstruction H s w = .ok s1 →
      s1.busRegister =
        if instrType w = H.instr A12_SET_BUS then instrData w &&& 15 else s.busRegister)
    ∧ (∀ (ws : List Nat) (s : State), runInstructions H (init H program) ws = .ok s →
      s.busRegister < 16 ∧ (∃ r, s.busRegister = H.reg r) ∧ ∃ v, bus H s = .ok v)
    ∧ (∀ (n : Nat) (e : Emulator), mainLoop H n (start H program) = .ok e →
      e.machine.busRegister < 16 ∧ (∃ r, e.machine.busRegister = H.reg r)
        ∧ ∃ v, bus H e.machine = .ok v) := by
  have h0 : (init H program).busRegister < 16 := hH.2.2.2 REG_LITERAL
  refine ⟨fun s s1 w h => handleInstruction_busRegister H hH s s1 w h, ?_, ?_⟩
  · intro ws s h
    have hlt := runInstructions_selector_lt H hH ws _ s h0 h
    exact ⟨hlt, selector_defined H hH s hlt⟩
  · intro n e h
    have hlt := mainLoop_selector_lt H hH n _ e h0 h
    exact ⟨hlt, selector_defined H hH e.machine hlt⟩

/-- C11 at the sample headers: after `A12_SET_BUS` with immediate `0xFFFD` the
selector is 13 and `bus()` returns. -/
theorem C11_selector_defined_witness :
    ∃ s, runInstructions sampleHeaders (init sampleHeaders fun _ => 0) [word 12 0xFFFD] = .ok s
      ∧ s.busRegister = 13 ∧ s.busRegister < 16 ∧ ∃ v, bus sampleHeaders s = .ok v :=
  ⟨_, rfl, rfl,
    ((C11_selector_defined sampleHeaders sampleHeaders_wellFormed fun _ => 0).2.1
      [word 12 0xFFFD] _ rfl).1,
    ((C11_selector_defined sampleHeaders sampleHeaders_wellFormed fun _ => 0).2.1
      [word 12 0xFFFD] _ rfl).2.2⟩

/-! ### C12: the literal fold -/

/-- A handler completes when the selector is defined and, for `B1_UART_OFV`,
the bus value it divides by is not zero. -/
theorem exec_ok (H : Headers) (op : instruction_type) (s : State) (d : Nat) (r : bus_register)
    (hsel : s.busRegister = H.reg r) (hdiv : op = B1_UART_OFV → bus H s ≠ .ok 0) :
    ∃ s1, exec H op s d = .ok s1 := by
  obtain ⟨v, hv⟩ := bus_ok_of_selector H s r hsel
  cases op
  all_goals first
    | exact ⟨_, rfl⟩
    | (simp only [exec, bind, Except.bind, pure, Except.pure, bus_with_returnAddress, hv]
       first
         | exact ⟨_, rfl⟩
         | (have hv0 : v ≠ 0 := fun h0 => hdiv rfl (h0 ▸ hv)
            rw [if_neg hv0]
            exact ⟨_, rfl⟩))

/-- The high half of `(d << 16) | d`, shifted down, is `d`. -/
theorem setHigh_shift (d : Nat) (hd : d < 65536) : ((d <<< 16) ||| d) >>> 16 = d := by
  apply Nat.eq_of_testBit_eq
  intro i
  simp only [Nat.testBit_shiftRight, Nat.testBit_or, Nat.testBit_shiftLeft]
  simp [testBit_high_of_lt d (16 + i) hd (by omega)]

/-- C12: for an instruction word with a handled opcode `op` and immediate `d`:
the handler runs in the state in which line 80 has already folded `d` into the
literal, so with the literal selected the bus value it reads has low half `d`;
after the instruction the low half of the literal is `d`; the high half is
unchanged unless `op` is `A10_SET_HIGH`, and then it is `d`.  The instruction
completes whenever the selector is defined and `B1_UART_OFV` does not divide
by zero. -/
theorem C12_literal_fold (H : Headers) (hH : H.WellFormed) (s : State) (w d : Nat)
    (op : instruction_type) (hop : instrType w = H.instr op) (hd : instrData w = d) :
    handleInstruction H s w = exec H op (foldLiteral s d) d
    ∧ (foldLiteral s d).dataLiteral &&& 0xFFFF = d
    ∧ (s.busRegister = H.reg REG_LITERAL →
        ∃ v, bus H (foldLiteral s d) = .ok v ∧ v &&& 0xFFFF = d)
    ∧ (∀ s1, handleInstruction H s w = .ok s1 →
        s1.dataLiteral &&& 0xFFFF = d
        ∧ (op ≠ A10_SET_HIGH →
            s1.dataLiteral &&& 0xFFFF0000 = s.dataLiteral &&& 0xFFFF0000)
        ∧ (op = A10_SET_HIGH → s1.dataLiteral >>> 16 = d))
    ∧ (∀ r, s.busRegister = H.reg r →
        (op = B1_UART_OFV → bus H (foldLiteral s d) ≠ .ok 0) →
        ∃ s1, handleInstruction H s w = .ok s1) := by
  subst hd
  have hlt := instrData_lt w
  have hrun := handleInstruction_of_type H hH.1 s w op hop
  have hlow : (foldLiteral s (instrData w)).dataLiteral &&& 0xFFFF = instrData w :=
    fold_low _ _ hlt
  refine ⟨hrun, hlow, ?_, ?_, ?_⟩
  · intro hsel
    exact ⟨_, bus_of_selector H hH.2.2.1 (foldLiteral s (instrData w)) REG_LITERAL hsel, hlow⟩
  · intro s1 h
    rw [hrun] at h
    by_cases hA10 : op = A10_SET_HIGH
    · subst hA10
      simp only [exec, pure, Except.pure, Except.ok.injEq] at h
      subst h
      have hval : (((foldLiteral s (instrData w)).dataLiteral &&& 0xFFFF)
          ||| (instrData w <<< 16)) % 4294967296 = (instrData w <<< 16) ||| instrData w := by
        rw [hlow, setHigh_value _ hlt]
      refine ⟨?_, fun hne => absurd rfl hne, fun _ => ?_⟩
      · show (((foldLiteral s (instrData w)).dataLiteral &&& 0xFFFF)
          ||| (instrData w <<< 16)) % 4294967296 &&& 0xFFFF = instrData w
        rw [hval, setHigh_low _ hlt]
      · show ((((foldLiteral s (instrData w)).dataLiteral &&& 0xFFFF)
          ||| (instrData w <<< 16)) % 4294967296) >>> 16 = instrData w
        rw [hval, setHigh_shift _ hlt]
    · have hl := exec_dataLiteral H op _ s1 _ hA10 h
      refine ⟨?_, fun _ => ?_, fun heq => absurd heq hA10⟩
      · rw [hl]; exact hlow
      · rw [hl]; exact fold_high _ _ hlt
  · intro r hsel hdiv
    rw [hrun]
    exact exec_ok H op _ _ r hsel hdiv

/-- C12 at the sample headers: `A9_SET_A` with immediate `0x1234` in a state
whose literal is `0xABCD0000`, the literal selected, loads `a` with
`0xABCD1234`; then `A10_SET_HIGH` with immediate 7 leaves `0x00070007`. -/
theorem C12_literal_fold_witness :
    (∃ s1, handleInstruction sampleHeaders
        { init sampleHeaders (fun _ => 0) with dataLiteral := 0xABCD0000 } (word 9 0x1234)
          = .ok s1
      ∧ s1.a = 0xABCD1234 ∧ s1.dataLiteral &&& 0xFFFF = 0x1234
      ∧ s1.dataLiteral &&& 0xFFFF0000 = 0xABCD0000)
    ∧ (∃ s1, handleInstruction sampleHeaders
        { init sampleHeaders (fun _ => 0) with dataLiteral := 0xABCD0000 } (word 10 7)
          = .ok s1
      ∧ s1.dataLiteral &&& 0xFFFF = 7 ∧ s1.dataLiteral >>> 16 = 7) := by
  have h9 := C12_literal_fold sampleHeaders sampleHeaders_wellFormed
    { init sampleHeaders (fun _ => 0) with dataLiteral := 0xABCD0000 } (word 9 0x1234) 0x1234
    A9_SET_A rfl rfl
  have h10 := C12_literal_fold sampleHeaders sampleHeaders_wellFormed
    { init sampleHeaders (fun _ => 0) with dataLiteral := 0xABCD0000 } (word 10 7) 7
    A10_SET_HIGH rfl rfl
  obtain ⟨s1, hs1⟩ := h9.2.2.2.2 REG_LITERAL rfl (fun h => by cases h)
  obtain ⟨t1, ht1⟩ := h10.2.2.2.2 REG_LITERAL rfl (fun h => by cases h)
  have e1 : s1 = { foldLiteral { init sampleHeaders (fun _ => 0) with
      dataLiteral := 0xABCD0000 } 0x1234 with a := 0xABCD1234 } :=
    Except.ok.inj (hs1.symm.trans rfl)
  refine ⟨⟨s1, hs1, ?_, (h9.2.2.2.1 s1 hs1).1, ?_⟩,
    ⟨t1, ht1, (h10.2.2.2.1 t1 ht1).1, (h10.2.2.2.1 t1 ht1).2.2 rfl⟩⟩
  · rw [e1]
  · exact (h9.2.2.2.1 s1 hs1).2.1 (by decide)

/-! ### C13: decode and re-encode -/

theorem instrData_eq (w : Nat) : instrData w = w % 65536 := by
  unfold instrData
  rw [and_ffff, Nat.mod_mod]

/-- An opcode byte and an immediate packed into a word, as a sum. -/
theorem word_eq (t d : Nat) (hd : d < 65536) : word t d = 65536 * t + d := by
  unfold word
  have h := Nat.mul_add_lt_is_or (i := 16) (b := d) hd t
  rw [Nat.shiftLeft_eq, Nat.mul_comm]
  exact h.symm

/-- C13: for a 24-bit instruction word the decode of lines 78-79 gives an
opcode byte below 256 and an immediate below 65536, the stores into `uint8_t`
and `uint16_t` truncate nothing, and `(type << 16) | immediate` is the word
again. -/
theorem C13_decode_encode (w : Nat) (hw : w < 2 ^ 24) :
    instrType w = (w &&& 0xFF0000) >>> 16
    ∧ instrData w = w &&& 0xFFFF
    ∧ instrType w < 256
    ∧ instrData w < 65536
    ∧ word (instrType w) (instrData w) = w := by
  have ht := instrType_eq w
  have hd := instrData_eq w
  refine ⟨?_, ?_, instrType_lt w, instrData_lt w, ?_⟩
  · unfold instrType
    have h1 : w &&& 0xFF0000 ≤ 0xFF0000 := Nat.and_le_right
    have h2 : (w &&& 0xFF0000) >>> 16 = (w &&& 0xFF0000) / 65536 :=
      Nat.shiftRight_eq_div_pow _ 16
    rw [h2]
    omega
  · rw [hd, and_ffff]
  · rw [word_eq _ _ (instrData_lt w), ht, hd]
    omega

/-- C13 at the word `0x0C0005`, `A12_SET_BUS` with immediate 5 at the sample
headers. -/
theorem C13_decode_encode_witness :
    instrType 0x0C0005 = 12 ∧ instrData 0x0C0005 = 5 ∧ word 12 5 = 0x0C0005 :=
  ⟨rfl, rfl, (C13_decode_encode 0x0C0005 (by decide)).2.2.2.2⟩

/-! ### Invariants of the fetch-execute loop -/

/-- A property of the machine that every fetch-execute step keeps, and that
does not depend on the trace, holds after any number of passes of the loop. -/
theorem mainLoop_invariant (H : Headers) (P : State → Prop)
    (hstep : ∀ s s1, P s → fetchExecute H s = .ok s1 → P s1)
    (htrace : ∀ s evs, P s → P { s with trace := evs })
    (n : Nat) (e e1 : Emulator) (he : P e.machine) (h : mainLoop H n e = .ok e1) :
    P e1.machine := by
  induction n generalizing e with
  | zero =>
    simp only [mainLoop, Except.ok.injEq] at h
    exact h ▸ he
  | succ n ih =>
    simp only [mainLoop] at h
    cases hb : loopBody H e with
    | error f => rw [hb] at h; exact Except.noConfusion h
    | ok e2 =>
      rw [hb] at h
      obtain ⟨m, hm, hcase⟩ := loopBody_ok H e e2 hb
      have hPm : P m := hstep _ m he hm
      refine ih e2 ?_ h
      rcases hcase with ⟨_, he2⟩ | ⟨_, he2⟩
      · rw [he2]
        exact htrace m _ hPm
      · rw [he2]
        exact hPm

/-- The handlers keep the two 16-bit registers within 16 bits. -/
theorem exec_counters (H : Headers) (op : instruction_type) (s s1 : State) (d : Nat)
    (hpc : s.programCounter < 65536) (hra : s.returnAddress < 65536) (hd : d < 65536)
    (h : exec H op s d = .ok s1) :
    s1.programCounter < 65536 ∧ s1.returnAddress < 65536 := by
  cases op
  all_goals first
    | (simp only [exec, pure, Except.pure, Except.ok.injEq] at h
       subst h
       first
         | exact ⟨hpc, hra⟩
         | exact ⟨hra, hra⟩
         | exact ⟨hd, hra⟩
         | (split
            · exact ⟨hd, hra⟩
            · exact ⟨hpc, hra⟩))
    | (simp only [exec, bind, Except.bind, pure, Except.pure, bus_with_returnAddress] at h
       cases hb : bus H s with
       | error f => rw [hb] at h; exact Except.noConfusion h
       | ok v =>
         rw [hb] at h
         first
           | (simp only [Except.ok.injEq] at h
              subst h
              first
                | exact ⟨hpc, hra⟩
                | exact ⟨Nat.mod_lt _ (by decide), hpc⟩)
           | (dsimp only at h
              by_cases hv : v = 0
              · rw [if_pos hv] at h
                exact Except.noConfusion h
              · rw [if_neg hv, Except.ok.injEq] at h
                subst h
                exact ⟨hpc, hra⟩))

theorem fetchExecute_counters (H : Headers) (s s1 : State)
    (hra : s.returnAddress < 65536) (h : fetchExecute H s = .ok s1) :
    s1.programCounter < 65536 ∧ s1.returnAddress < 65536 := by
  obtain ⟨op, _, he⟩ := handleInstruction_ok H
    { s with programCounter := (s.programCounter + 1) % 65536 } s1
    (s.program s.programCounter) h
  have hpc : (s.programCounter + 1) % 65536 < 65536 := Nat.mod_lt _ (by decide)
  exact exec_counters H op
    (foldLiteral { s with programCounter := (s.programCounter + 1) % 65536 }
      (instrData (s.program s.programCounter))) s1 _ hpc hra (instrData_lt _) he

/-! ### C14: the fetch stays inside program memory -/

/-- C14: the fetch reads `program[pc]` and hands the handler a state whose
counter is `(pc + 1) mod 65536`; at `pc = 65535` that is 0; and in every state
the loop reaches from the initial state the counter, the index of the next
fetch, is below `programLen = 65536`. -/
theorem C14_fetch_in_bounds (H : Headers) (program : Nat → Nat) :
    (∀ s : State, fetchExecute H s = handleInstruction H
      { s with programCounter := (s.programCounter + 1) % 65536 }
      (s.program s.programCounter))
    ∧ (∀ s : State, s.programCounter = 65535 →
      fetchExecute H s = handleInstruction H { s with programCounter := 0 } (s.program 65535))
    ∧ (∀ (n : Nat) (e : Emulator), mainLoop H n (start H program) = .ok e →
      e.machine.programCounter < programLen) := by
  refine ⟨fun _ => rfl, ?_, ?_⟩
  · intro s hs
    unfold fetchExecute
    rw [hs]
  · intro n e h
    have hinv := mainLoop_invariant H
      (fun s => s.programCounter < 65536 ∧ s.returnAddress < 65536)
      (fun s s1 hs hfe => fetchExecute_counters H s s1 hs.2 hfe)
      (fun _ _ hs => hs) n (start H program) e
      ⟨show (0 : Nat) < 65536 by decide, show (0 : Nat) < 65536 by decide⟩ h
    exact hinv.1

/-- C14 at the sample headers: a fetch at `pc = 65535` runs the handler with
the counter at 0, and after 3 passes of `loopProgram` the counter is in
bounds. -/
theorem C14_fetch_in_bounds_witness :
    fetchExecute sampleHeaders
        { init sampleHeaders (fun _ => word 16 0) with programCounter := 65535 }
      = handleInstruction sampleHeaders
        { init sampleHeaders (fun _ => word 16 0) with programCounter := 0 } (word 16 0)
    ∧ ∀ e, mainLoop sampleHeaders 3 (start sampleHeaders loopProgram) = .ok e →
        e.machine.programCounter < programLen :=
  ⟨(C14_fetch_in_bounds sampleHeaders fun _ => word 16 0).2.1 _ rfl,
   (C14_fetch_in_bounds sampleHeaders loopProgram).2.2 3⟩

/-! ### C15: program loading -/

/-- The word `loadProgram` builds from three bytes, in the order the file
format is described: byte 0 is bits 0-7, byte 1 bits 8-15, byte 2 bits 16-23. -/
theorem loadWord_eq (b0 b1 b2 : Nat) (h0 : b0 < 256) (h1 : b1 < 256) (h2 : b2 < 256) :
    (((b2 % 256) <<< 16) ||| ((b1 % 256) <<< 8) ||| (b0 % 256)) % 4294967296
      = b0 ||| (b1 <<< 8) ||| (b2 <<< 16) := by
  rw [Nat.mod_eq_of_lt h0, Nat.mod_eq_of_lt h1, Nat.mod_eq_of_lt h2]
  have e2 : b2 <<< 16 < 2 ^ 32 := by rw [Nat.shiftLeft_eq]; omega
  have e1 : b1 <<< 8 < 2 ^ 32 := by rw [Nat.shiftLeft_eq]; omega
  have e0 : b0 < 2 ^ 32 := by omega
  have hlt : (b2 <<< 16) ||| (b1 <<< 8) ||| b0 < 4294967296 :=
    Nat.or_lt_two_pow (Nat.or_lt_two_pow e2 e1) e0
  rw [Nat.mod_eq_of_lt hlt, Nat.lor_comm (b2 <<< 16) (b1 <<< 8), Nat.lor_comm _ b0,
    Nat.lor_assoc]

/-- What the load loop writes and what it leaves. -/
theorem loadLoop_spec (count : Nat) :
    ∀ (i : Nat) (stream : List Nat) (program : Nat → Nat),
      3 * count ≤ stream.length → (∀ x ∈ stream, x < 256) →
      (∀ j, j < count → loadLoop count i stream program (i + j)
          = stream.getD (3 * j) 0 ||| (stream.getD (3 * j + 1) 0 <<< 8)
            ||| (stream.getD (3 * j + 2) 0 <<< 16))
      ∧ (∀ m, m < i ∨ i + count ≤ m → loadLoop count i stream program m = program m) := by
  induction count with
  | zero =>
    intro i stream program _ _
    exact ⟨fun j hj => absurd hj (Nat.not_lt_zero j), fun m _ => rfl⟩
  | succ k ih =>
    intro i stream program hlen hbytes
    match stream, hlen, hbytes with
    | b0 :: b1 :: b2 :: rest, hlen, hbytes =>
      have hrest : 3 * k ≤ rest.length := by
        simp only [List.length_cons] at hlen
        omega
      have hb0 : b0 < 256 := hbytes b0 (by simp)
      have hb1 : b1 < 256 := hbytes b1 (by simp)
      have hb2 : b2 < 256 := hbytes b2 (by simp)
      have hbr : ∀ x ∈ rest, x < 256 := fun x hx => hbytes x (by simp [hx])
      obtain ⟨ih1, ih2⟩ := ih (i + 1) rest
        (Function.update program i
          ((((b2 % 256) <<< 16) ||| ((b1 % 256) <<< 8) ||| (b0 % 256)) % 4294967296))
        hrest hbr
      constructor
      · intro j hj
        cases j with
        | zero =>
          show loadLoop k (i + 1) rest _ (i + 0) = _
          rw [ih2 (i + 0) (Or.inl (by omega))]
          simp only [Nat.add_zero, Function.update_same]
          exact loadWord_eq b0 b1 b2 hb0 hb1 hb2
        | succ j =>
          show loadLoop k (i + 1) rest _ (i + (j + 1)) = _
          have := ih1 j (by omega)
          rw [show i + (j + 1) = i + 1 + j by omega, this]
          have e0 : 3 * (j + 1) = 3 * j + 1 + 1 + 1 := by omega
          have e1 : 3 * (j + 1) + 1 = 3 * j + 1 + 1 + 1 + 1 := by omega
          have e2 : 3 * (j + 1) + 2 = 3 * j + 2 + 1 + 1 + 1 := by omega
          rw [e1, e2, e0]
          simp only [List.getD_cons_succ]
      · intro m hm
        show loadLoop k (i + 1) rest _ m = _
        rw [ih2 m (by omega)]
        exact Function.update_noteq (by omega) _ _
    | [], hlen, _ => simp at hlen
    | [_], hlen, _ => simp at hlen; omega
    | [_, _], hlen, _ => simp at hlen; omega

/-- The load loop reads only the first `3 * count` bytes of the stream. -/
theorem loadLoop_take (count : Nat) :
    ∀ (i : Nat) (stream : List Nat) (program : Nat → Nat), 3 * count ≤ stream.length →
      loadLoop count i (stream.take (3 * count)) program = loadLoop count i stream program := by
  induction count with
  | zero => intro i stream program _; rfl
  | succ k ih =>
    intro i stream program hlen
    match stream, hlen with
    | b0 :: b1 :: b2 :: rest, hlen =>
      have hrest : 3 * k ≤ rest.length := by
        simp only [List.length_cons] at hlen
        omega
      have e : 3 * (k + 1) = 3 * k + 1 + 1 + 1 := by omega
      rw [e]
      simp only [List.take_succ_cons, loadLoop]
      exact ih (i + 1) rest _ hrest
    | [], hlen => simp at hlen
    | [_], hlen => simp at hlen; omega
    | [_, _], hlen => simp at hlen; omega

/-- C15: loading a file of `n` bytes `b`, each below 256, with
`n / 3 ≤ 65536`: every index `i < n / 3` is inside program memory and receives
`b[3i] | (b[3i+1] << 8) | (b[3i+2] << 16)`; entries at indices `≥ n / 3` keep
their value; the result is the same as for the file cut to `3 * (n / 3)` bytes,
so the trailing `n mod 3` bytes are ignored. -/
theorem C15_loadProgram (b : List Nat) (program : Nat → Nat)
    (hb : ∀ x ∈ b, x < 256) (hn : b.length / 3 ≤ 65536) :
    ∃ p, loadProgram (some b) program = some p
      ∧ (∀ i, i < b.length / 3 → i < programLen
          ∧ p i = b.getD (3 * i) 0 ||| (b.getD (3 * i + 1) 0 <<< 8)
            ||| (b.getD (3 * i + 2) 0 <<< 16))
      ∧ (∀ i, b.length / 3 ≤ i → p i = program i)
      ∧ loadProgram (some (b.take (3 * (b.length / 3)))) program = some p := by
  have hlen : 3 * (b.length / 3) ≤ b.length := Nat.mul_div_le _ _
  obtain ⟨h1, h2⟩ := loadLoop_spec (b.length / 3) 0 b program hlen hb
  refine ⟨_, rfl, ?_, ?_, ?_⟩
  · intro i hi
    refine ⟨Nat.lt_of_lt_of_le hi hn, ?_⟩
    have := h1 i hi
    rw [Nat.zero_add] at this
    exact this
  · intro i hi
    exact h2 i (Or.inr (by omega))
  · have hl : (b.take (3 * (b.length / 3))).length / 3 = b.length / 3 := by
      rw [List.length_take, Nat.min_eq_left hlen]
      omega
    show some (loadLoop _ 0 _ program) = _
    rw [hl, loadLoop_take _ 0 b program hlen]

/-- C15 on the seven-byte file `05 00 0C 00 00 09 FF`: two words, `0x0C0005`
and `0x090000`, the seventh byte dropped, entry 2 as it was. -/
theorem C15_loadProgram_witness :
    ∃ p, loadProgram (some [5, 0, 12, 0, 0, 9, 255]) (fun _ => 77) = some p
      ∧ p 0 = 0x0C0005 ∧ p 1 = 0x090000 ∧ p 2 = 77 := by
  obtain ⟨p, hp, hword, hrest, _⟩ := C15_loadProgram [5, 0, 12, 0, 0, 9, 255] (fun _ => 77)
    (by decide) (by decide)
  exact ⟨p, hp, (hword 0 (by decide)).2, (hword 1 (by decide)).2, hrest 2 (by decide)⟩

/-! ### C16: the carry-in flag -/

/-- The conversion `bool(x & 8)` reads bit 3 of `x`. -/
theorem and_8_ne_zero (v : Nat) : decide (v &&& 8 ≠ 0) = v.testBit 3 := by
  have h8 : (8 : Nat) = 2 ^ 3 := by decide
  have hbit : (v &&& 8).testBit 3 = v.testBit 3 := by
    rw [Nat.testBit_and, h8, Nat.testBit_two_pow_self, Bool.and_true]
  cases hv : v.testBit 3 with
  | true =>
    rw [hv] at hbit
    have hne : v &&& 8 ≠ 0 := by
      intro h0
      rw [h0, Nat.zero_testBit] at hbit
      exact Bool.noConfusion hbit
    exact decide_eq_true hne
  | false =>
    have h0 : v &&& 8 = 0 := by
      apply Nat.eq_of_testBit_eq
      intro i
      rw [Nat.testBit_and, h8, Nat.testBit_two_pow, Nat.zero_testBit]
      by_cases hi : 3 = i
      · subst hi
        rw [hv, Bool.false_and]
      · rw [decide_eq_false hi, Bool.and_false]
    exact decide_eq_false (fun hne => hne h0)

/-- C16: `A1_SET_CARRY_IN`, executed with a defined selector, sets the carry-in
flag to bit 3 of the bus value, whatever the other bits are, and changes
nothing else apart from the low 16 bits of the literal, which take the
immediate. -/
theorem C16_set_carry_in (H : Headers) (hH : H.WellFormed) (s : State) (w : Nat)
    (r : bus_register) (hw : instrType w = H.instr A1_SET_CARRY_IN)
    (hsel : s.busRegister = H.reg r) :
    ∃ v, bus H (foldLiteral s (instrData w)) = .ok v
      ∧ handleInstruction H s w = .ok
          { s with
            dataLiteral := (s.dataLiteral &&& 0xFFFF0000) ||| instrData w
            carryIn := v.testBit 3 }
      ∧ (v.testBit 3 = true ↔ v &&& 8 ≠ 0)
      ∧ ((s.dataLiteral &&& 0xFFFF0000) ||| instrData w) &&& 0xFFFF0000
          = s.dataLiteral &&& 0xFFFF0000
      ∧ ((s.dataLiteral &&& 0xFFFF0000) ||| instrData w) &&& 0xFFFF = instrData w := by
  obtain ⟨v, hv⟩ := bus_ok_of_selector H (foldLiteral s (instrData w)) r hsel
  refine ⟨v, hv, ?_, ?_, fold_high _ _ (instrData_lt w), fold_low _ _ (instrData_lt w)⟩
  · simp only [handleInstruction_of_type H hH.1 _ _ _ hw, exec, hv, bind, Except.bind, pure,
      Except.pure, and_8_ne_zero]
    rfl
  · rw [← and_8_ne_zero]
    exact decide_eq_true_iff

/-- C16 at the sample headers: with the literal selected the immediate
`0xFFF7` (every bit but bit 3) clears the flag and the immediate 8 sets it. -/
theorem C16_set_carry_in_witness :
    (handleInstruction sampleHeaders { init sampleHeaders (fun _ => 0) with carryIn := true }
        (word 1 0xFFF7)).map State.carryIn = .ok false
    ∧ (handleInstruction sampleHeaders (init sampleHeaders fun _ => 0)
        (word 1 8)).map State.carryIn = .ok true := by
  obtain ⟨v, hv, h, _⟩ := C16_set_carry_in sampleHeaders sampleHeaders_wellFormed
    { init sampleHeaders (fun _ => 0) with carryIn := true } (word 1 0xFFF7) REG_LITERAL
    rfl rfl
  obtain ⟨v2, hv2, h2, _⟩ := C16_set_carry_in sampleHeaders sampleHeaders_wellFormed
    (init sampleHeaders fun _ => 0) (word 1 8) REG_LITERAL rfl rfl
  have e : v = 0xFFF7 := Except.ok.inj (hv.symm.trans rfl)
  have e2 : v2 = 8 := Except.ok.inj (hv2.symm.trans rfl)
  subst e e2
  rw [h, h2]
  exact ⟨rfl, rfl⟩

/-! ### C17: program memory is read-only at run time -/

theorem handleInstruction_program (H : Headers) (s s1 : State) (w : Nat)
    (h : handleInstruction H s w = .ok s1) : s1.program = s.program := by
  obtain ⟨op, _, he⟩ := handleInstruction_ok H s s1 w h
  exact exec_program H op (foldLiteral s (instrData w)) s1 (instrData w) he

/-- C17: a completed `handleInstruction`, a completed fetch-execute step and
any number of passes of the loop leave every entry of `program` as it was. -/
theorem C17_program_read_only (H : Headers) (program : Nat → Nat) :
    (∀ (s s1 : State) (w : Nat), handleInstruction H s w = .ok s1 →
      ∀ i, s1.program i = s.program i)
    ∧ (∀ s s1 : State, fetchExecute H s = .ok s1 → ∀ i, s1.program i = s.program i)
    ∧ (∀ (n : Nat) (e : Emulator), mainLoop H n (start H program) = .ok e →
      ∀ i, e.machine.program i = program i) := by
  refine ⟨?_, ?_, ?_⟩
  · intro s s1 w h i
    rw [handleInstruction_program H s s1 w h]
  · intro s s1 h i
    have := handleInstruction_program H
      { s with programCounter := (s.programCounter + 1) % 65536 } s1
      (s.program s.programCounter) h
    rw [this]
  · intro n e h i
    have hinv := mainLoop_invariant H (fun s => s.program = program)
      (fun s s1 hs hfe => by
        have := handleInstruction_program H
          { s with programCounter := (s.programCounter + 1) % 65536 } s1
          (s.program s.programCounter) hfe
        exact this.trans hs)
      (fun _ _ hs => hs) n (start H program) e rfl h
    rw [hinv]

/-- C17 at the sample headers: `loopProgram` is intact after 9 passes, and a
commit to DRAM (`A11_WRITE_DRAM`) does not touch it either. -/
theorem C17_program_read_only_witness :
    (∀ e, mainLoop sampleHeaders 9 (start sampleHeaders loopProgram) = .ok e →
      ∀ i, e.machine.program i = loopProgram i)
    ∧ (∀ s1, handleInstruction sampleHeaders (init sampleHeaders loopProgram) (word 11 0)
        = .ok s1 → ∀ i, s1.program i = loopProgram i) :=
  ⟨(C17_program_read_only sampleHeaders loopProgram).2.2 9,
   fun s1 h => (C17_program_read_only sampleHeaders loopProgram).1 _ s1 _ h⟩

/-! ### C18: the display cadence -/

/-- No handler calls `display_update()`. -/
theorem exec_presents (H : Headers) (op : instruction_type) (s s1 : State) (d : Nat)
    (h : exec H op s d = .ok s1) : presents s1 = presents s := by
  cases op
  all_goals first
    | (simp only [exec, pure, Except.pure, Except.ok.injEq] at h
       subst h
       first | rfl | (split <;> rfl))
    | (simp only [exec, bind, Except.bind, pure, Except.pure, bus_with_returnAddress] at h
       cases hb : bus H s with
       | error f => rw [hb] at h; exact Except.noConfusion h
       | ok v =>
         rw [hb] at h
         first
           | (simp only [Except.ok.injEq] at h
              subst h
              first | rfl | simp [presents])
           | (dsimp only at h
              by_cases hv : v = 0
              · rw [if_pos hv] at h
                exact Except.noConfusion h
              · rw [if_neg hv, Except.ok.injEq] at h
                subst h
                simp [presents]))

theorem fetchExecute_presents (H : Headers) (s s1 : State) (h : fetchExecute H s = .ok s1) :
    presents s1 = presents s := by
  obtain ⟨op, _, he⟩ := handleInstruction_ok H
    { s with programCounter := (s.programCounter + 1) % 65536 } s1
    (s.program s.programCounter) h
  exact exec_presents H op
    (foldLiteral { s with programCounter := (s.programCounter + 1) % 65536 }
      (instrData (s.program s.programCounter))) s1 _ he

/-- The counter and the number of presents after `n` passes of the loop that
started with the counter at `c ≤ 16666`: the display is presented on the pass
that finds the counter at 16666, which is every 16667th. -/
theorem mainLoop_display (H : Headers) (n : Nat) (e e1 : Emulator)
    (hc : e.display_counter ≤ instructions_per_display_update)
    (h : mainLoop H n e = .ok e1) :
    e1.display_counter = (e.display_counter + n) % (instructions_per_display_update + 1)
    ∧ presents e1.machine
        = presents e.machine + (e.display_counter + n) / (instructions_per_display_update + 1) := by
  induction n generalizing e with
  | zero =>
    simp only [mainLoop, Except.ok.injEq] at h
    subst h
    simp only [instructions_per_display_update] at hc ⊢
    omega
  | succ n ih =>
    simp only [mainLoop] at h
    cases hb : loopBody H e with
    | error f => rw [hb] at h; exact Except.noConfusion h
    | ok e2 =>
      rw [hb] at h
      obtain ⟨m, hm, hcase⟩ := loopBody_ok H e e2 hb
      have hpm := fetchExecute_presents H _ m hm
      rcases hcase with ⟨hfull, he2⟩ | ⟨hnot, he2⟩
      · have hc2 : e2.display_counter = 0 := by rw [he2]
        have hp2 : presents e2.machine = presents e.machine + 1 := by
          rw [he2, ← hpm]
          simp [presents]
        obtain ⟨i1, i2⟩ := ih e2 (by rw [hc2]; exact Nat.zero_le _) h
        rw [hc2] at i1 i2
        rw [hp2] at i2
        simp only [instructions_per_display_update] at hfull i1 i2 ⊢
        omega
      · have hc2 : e2.display_counter = e.display_counter + 1 := by rw [he2]
        have hp2 : presents e2.machine = presents e.machine := by rw [he2, ← hpm]
        have hle : e2.display_counter ≤ instructions_per_display_update := by
          rw [hc2]
          simp only [instructions_per_display_update] at hc hnot ⊢
          omega
        obtain ⟨i1, i2⟩ := ih e2 hle h
        rw [hc2] at i1 i2
        rw [hp2] at i2
        simp only [instructions_per_display_update] at i1 i2 ⊢
        omega

/-- The three-instruction loop at the sample headers runs for any number of
passes, and the display has then been presented `n / 16667` times. -/
theorem loopProgram_presents (n : Nat) :
    ∃ e, mainLoop sampleHeaders n (start sampleHeaders loopProgram) = .ok e
      ∧ presents e.machine = n / 16667 := by
  obtain ⟨e, he, _⟩ := mainLoop_loopInvariant sampleHeaders sampleHeaders_wellFormed
    loopProgram rfl rfl rfl rfl rfl rfl n (start sampleHeaders loopProgram)
    ⟨rfl, Or.inl rfl, show (0 : Nat) < 65536 by decide, rfl, rfl, rfl, rfl, rfl, rfl, rfl⟩
  obtain ⟨_, hp⟩ := mainLoop_display sampleHeaders n (start sampleHeaders loopProgram) e
    (Nat.zero_le _) he
  refine ⟨e, he, ?_⟩
  have h0 : presents (start sampleHeaders loopProgram).machine = 0 := rfl
  have hc0 : (start sampleHeaders loopProgram).display_counter = 0 := rfl
  rw [h0, hc0] at hp
  simp only [instructions_per_display_update] at hp
  omega

/-- C18, evaluated on the three-instruction loop at the sample headers: after
16666 executed instructions the display has not been presented, the first
present comes with instruction 16667, the second with instruction 33334, so
presents are 16667 instructions apart, one more than
`instructions_per_display_update`. -/
theorem C18_display_cadence :
    (∃ e, mainLoop sampleHeaders 16666 (start sampleHeaders loopProgram) = .ok e
      ∧ presents e.machine = 0)
    ∧ (∃ e, mainLoop sampleHeaders 16667 (start sampleHeaders loopProgram) = .ok e
      ∧ presents e.machine = 1)
    ∧ (∃ e, mainLoop sampleHeaders 33333 (start sampleHeaders loopProgram) = .ok e
      ∧ presents e.machine = 1)
    ∧ (∃ e, mainLoop sampleHeaders 33334 (start sampleHeaders loopProgram) = .ok e
      ∧ presents e.machine = 2)
    ∧ instructions_per_display_update = 16666 :=
  ⟨loopProgram_presents 16666, loopProgram_presents 16667, loopProgram_presents 33333,
    loopProgram_presents 33334, rfl⟩

/-! ### C19: what `B3_UART_TX` transmits -/

/-- The handler of `B3_UART_TX`, given the bus value: one `UART TX` line whose
text is built from the bus value and from `bus() & mask`, the mask having
`uart_data_bits + 1` one bits. -/
theorem handleInstruction_uartTx (H : Headers) (hH : H.WellFormed) (s : State) (w v : Nat)
    (hw : instrType w = H.instr B3_UART_TX)
    (hb : bus H (foldLiteral s (instrData w)) = .ok v) :
    handleInstruction H s w = .ok { foldLiteral s (instrData w) with
      trace := s.trace ++ [Event.uart_tx s.uart_data_bits
        (uartText s.uart_data_bits v
          ((v &&& ((1 <<< (s.uart_data_bits + 1)) - 1) % 65536) % 65536))] } := by
  simp only [handleInstruction_of_type H hH.1 _ _ _ hw, exec, hb, bind, Except.bind, pure,
    Except.pure]
  rfl

/-- C19, evaluated at the sample headers.  With 6 data bits configured
(`B2_UART_CONFIG` on a zero bus) `B3_UART_TX` on the bus value `0xFF` prints
the character `0xFF`, all eight bits, where `0xFF & (2^6 - 1)` is `0x3F`.  With
9 data bits configured (bits 17-18 of the configuration word set) `B3_UART_TX`
on the bus value `0x3FF` prints `3ff`, ten bits, where `0x3FF & (2^9 - 1)` is
`0x1FF`. -/
theorem C19_uart_tx :
    (runInstructions sampleHeaders (init sampleHeaders fun _ => 0)
        [word 18 0, word 19 0xFF]).map State.trace
      = .ok [Event.uart_config 6 false false 1, Event.uart_tx 6 [Char.ofNat 0xFF]]
    ∧ (0xFF : Nat) &&& (2 ^ 6 - 1) = 0x3F
    ∧ (runInstructions sampleHeaders (init sampleHeaders fun _ => 0)
        [word 10 6, word 18 0, word 10 0, word 19 0x3FF]).map State.trace
      = .ok [Event.uart_config 9 false false 1, Event.uart_tx 9 ['3', 'f', 'f']]
    ∧ (0x3FF : Nat) &&& (2 ^ 9 - 1) = 0x1FF :=
  ⟨rfl, by decide, rfl, by decide⟩

/-! ### C20: the faults of a handled instruction -/

/-- A handled instruction executed with a defined selector either completes or
is a `B1_UART_OFV` that finds zero on the bus and divides by it. -/
theorem handleInstruction_faults (H : Headers) (hH : H.WellFormed) (s : State) (w : Nat)
    (op : instruction_type) (r : bus_register) (hop : instrType w = H.instr op)
    (hsel : s.busRegister = H.reg r) :
    (∃ s1, handleInstruction H s w = .ok s1)
    ∨ (op = B1_UART_OFV ∧ bus H (foldLiteral s (instrData w)) = .ok 0
        ∧ handleInstruction H s w = .error .divisionByZero) := by
  by_cases hdiv : op = B1_UART_OFV ∧ bus H (foldLiteral s (instrData w)) = .ok 0
  · obtain ⟨hB1, hb⟩ := hdiv
    refine Or.inr ⟨hB1, hb, ?_⟩
    subst hB1
    simp only [handleInstruction_of_type H hH.1 _ _ _ hop, exec, hb, bind, Except.bind]
    rfl
  · refine Or.inl ?_
    rw [handleInstruction_of_type H hH.1 _ _ _ hop]
    exact exec_ok H op _ _ r hsel (fun hB1 hb => hdiv ⟨hB1, hb⟩)

/-- From the initial state, a program that starts with `B1_UART_OFV` carrying
immediate 0 divides by zero on its first instruction, whatever the values of
the enumerators. -/
theorem uartOfv_first_divides_by_zero (H : Headers) (hH : H.WellFormed) (program : Nat → Nat)
    (hw : instrType (program 0) = H.instr B1_UART_OFV) (hd : instrData (program 0) = 0) :
    mainLoop H 1 (start H program) = .error .divisionByZero := by
  have hb : bus H (foldLiteral { init H program with programCounter := (0 + 1) % 65536 }
      (instrData (program 0))) = .ok 0 := by
    have h : bus H (foldLiteral { init H program with programCounter := (0 + 1) % 65536 }
        (instrData (program 0)))
        = .ok ((0 &&& 0xFFFF0000) ||| instrData (program 0)) :=
      bus_of_selector H hH.2.2.1 _ REG_LITERAL rfl
    rw [h, hd]
    rfl
  have hfe : fetchExecute H (start H program).machine = .error .divisionByZero := by
    show handleInstruction H { init H program with programCounter := (0 + 1) % 65536 }
      (program 0) = _
    simp only [handleInstruction_of_type H hH.1 _ _ _ hw, exec, hb, bind, Except.bind]
    rfl
  simp only [mainLoop, loopBody, hfe]

/-- C20, evaluated at the sample headers: in the initial state, which every run
starts from, the handled instruction `B1_UART_OFV` with immediate 0 reads 0
from the bus and ends in the division by zero of line 118, both executed
directly and as the first instruction of a program. -/
theorem C20_division_by_zero :
    bus sampleHeaders (foldLiteral (init sampleHeaders fun _ => word 17 0) 0) = .ok 0
    ∧ handleInstruction sampleHeaders (init sampleHeaders fun _ => word 17 0) (word 17 0)
      = .error .divisionByZero
    ∧ mainLoop sampleHeaders 1 (start sampleHeaders fun _ => word 17 0)
      = .error .divisionByZero
    ∧ instrType (word 17 0) = sampleHeaders.instr B1_UART_OFV :=
  ⟨rfl, rfl, rfl, rfl⟩

end PDC32
